import Mathlib

/-!
# Verification of the GSAST scan orchestrator core

Shallow embedding of the GSAST sources (results storage, SARIF gate,
plugin registry, worker pipeline, ruleset cache, configuration models and
the `/scan` endpoint) together with proofs settling the specification
claims about them.
-/

set_option maxRecDepth 4000

namespace GSAST

/-! ## JSON value model

Python dictionaries are modelled as insertion-ordered association lists:
assignment replaces the value of the first matching key in place and
appends otherwise, exactly like CPython `dict` semantics as observed
through iteration order. -/

inductive Json where
  | null
  | bool (b : Bool)
  | num (n : Int)
  | str (s : String)
  | arr (xs : List Json)
  | obj (kvs : List (String × Json))

abbrev JObj := List (String × Json)

variable {κ : Type} [DecidableEq κ] {α : Type}

/-- `d.get(k)` on a Python dict (also the lookup of a keyed store):
value of the first (only) matching key. -/
def jGet (kvs : List (κ × α)) (k : κ) : Option α :=
  match kvs with
  | [] => none
  | (k', v) :: rest => if k' = k then some v else jGet rest k

/-- `k in d` on a Python dict. -/
def jHasKey (kvs : List (κ × α)) (k : κ) : Bool :=
  (jGet kvs k).isSome

/-- `d[k] = v` on a Python dict: replace the first matching binding in
place, append at the end when the key is absent. -/
def jSet (kvs : List (κ × α)) (k : κ) (v : α) : List (κ × α) :=
  match kvs with
  | [] => [(k, v)]
  | (k', v') :: rest =>
    if k' = k then (k', v) :: rest else (k', v') :: jSet rest k v

theorem jGet_jSet (kvs : List (κ × α)) (k : κ) (v : α) :
    jGet (jSet kvs k v) k = some v := by
  induction kvs with
  | nil => simp [jSet, jGet]
  | cons hd tl ih =>
    obtain ⟨k', v'⟩ := hd
    by_cases h : k' = k <;> simp [jSet, jGet, h, ih]

theorem jGet_jSet_ne (kvs : List (κ × α)) (k k' : κ) (v : α)
    (h : k' ≠ k) :
    jGet (jSet kvs k' v) k = jGet kvs k := by
  induction kvs with
  | nil => simp [jSet, jGet, h]
  | cons hd tl ih =>
    obtain ⟨k₀, v₀⟩ := hd
    by_cases h₀ : k₀ = k'
    · subst h₀
      have hne : ¬ k₀ = k := fun hh => h (hh ▸ rfl)
      simp [jSet, jGet, hne]
    · by_cases h₁ : k₀ = k <;> simp [jSet, jGet, h₀, h₁, Ne.symm h, ih]

theorem jSet_self (kvs : List (κ × α)) (k : κ) (v : α)
    (h : jGet kvs k = some v) : jSet kvs k v = kvs := by
  induction kvs with
  | nil => simp [jGet] at h
  | cons hd tl ih =>
    obtain ⟨k', v'⟩ := hd
    by_cases h' : k' = k
    · simp [jGet, h'] at h
      simp [jSet, h', h]
    · simp [jGet, h'] at h
      simp [jSet, h', ih h]

theorem jSet_jSet (kvs : List (κ × α)) (k : κ) (v : α) :
    jSet (jSet kvs k v) k v = jSet kvs k v :=
  jSet_self _ _ _ (jGet_jSet kvs k v)

/-- Python dict assignment with an optional value: `d[k] = s` when the
metadata carries the field, no-op otherwise. -/
def setOpt (kvs : JObj) (k : String) (v : Option String) : JObj :=
  match v with
  | some s => jSet kvs k (.str s)
  | none => kvs

theorem jGet_setOpt_ne (kvs : JObj) (k k' : String) (v : Option String)
    (h : k' ≠ k) : jGet (setOpt kvs k' v) k = jGet kvs k := by
  cases v with
  | none => rfl
  | some s => exact jGet_jSet_ne kvs k k' (.str s) h

/-! ## SARIF gate (`sastlib/sarif_validator.py`)

`SarifValidator.validate_sarif_data` is a pure structural check;
`standardize_sarif_output` mutates a deep copy of the document.  The
wall-clock timestamp taken by `datetime.now` is passed explicitly as the
parameter `t`, and a raised Python exception is an `Except.error`. -/

def isSpaceChar (c : Char) : Bool :=
  c == ' ' || c == '\t' || c == '\n' || c == '\r'

/-- Truthiness of `s.strip()` in the validator: the string contains at
least one non-whitespace character. -/
def strNonBlank (s : String) : Bool := s.data.any fun c => ! isSpaceChar c

/-- `plugin_metadata` dict handed to the gate: optional string fields,
looked up with `in` / `.get` just like the Python dict. -/
structure PluginMeta where
  pluginId? : Option String := none
  name? : Option String := none
  version? : Option String := none
  author? : Option String := none
  homepage? : Option String := none

/-- `SarifValidator._validate_location`. -/
def validLocation (loc : Json) : Bool :=
  match loc with
  | .obj kvs =>
    match jGet kvs "physicalLocation" with
    | some (.obj pl) =>
      match jGet pl "artifactLocation" with
      | some (.obj al) =>
        match jGet al "uri" with
        | some (.str u) => strNonBlank u
        | _ => false
      | _ => false
    | _ => false
  | _ => false

/-- `SarifValidator._validate_result`. -/
def validResult (res : Json) : Bool :=
  match res with
  | .obj kvs =>
    (match jGet kvs "message" with
     | some (.obj msg) =>
       match jGet msg "text" with
       | some (.str txt) => strNonBlank txt
       | _ => false
     | _ => false)
    &&
    (match jGet kvs "locations" with
     | some (.arr locs) => ! locs.isEmpty && locs.all validLocation
     | _ => false)
  | _ => false

/-- `SarifValidator._validate_tool`. -/
def validTool (tool : Json) : Bool :=
  match tool with
  | .obj kvs =>
    match jGet kvs "driver" with
    | some (.obj dkvs) =>
      match jGet dkvs "name" with
      | some (.str n) => strNonBlank n
      | _ => false
    | _ => false
  | _ => false

/-- `SarifValidator._validate_run`. -/
def validRun (run : Json) : Bool :=
  match run with
  | .obj kvs =>
    (match jGet kvs "tool" with
     | some tool => validTool tool
     | none => false)
    &&
    (match jGet kvs "results" with
     | some (.arr rs) => rs.all validResult
     | _ => false)
  | _ => false

/-- `SarifValidator.validate_sarif_data` (the `_validate_gsast_requirements`
step always passes). -/
def validateSarifData (x : Json) : Bool :=
  match x with
  | .obj kvs =>
    jHasKey kvs "$schema"
    && (match jGet kvs "version" with
        | some (.str v) => v == "2.1.0"
        | _ => false)
    && (match jGet kvs "runs" with
        | some (.arr runs) => ! runs.isEmpty && runs.all validRun
        | _ => false)
  | _ => false

/-- The `driver.properties.gsast` object inserted by standardization. -/
def gsastStamp (t : String) (md : PluginMeta) : Json :=
  .obj [("pluginId", .str (md.pluginId?.getD "unknown")),
        ("pluginAuthor", .str (md.author?.getD "unknown")),
        ("scanTimestamp", .str t),
        ("gsastVersion", .str "0.1.0")]

/-- The name/version/informationUri updates standardization applies to a
driver dict before touching `properties`. -/
def stdDriverPre (md : PluginMeta) (dkvs : JObj) : JObj :=
  setOpt (setOpt (setOpt dkvs "name" md.name?) "version" md.version?)
    "informationUri" md.homepage?

def stdDriver (t : String) (md : PluginMeta) (dkvs : JObj) : Except String JObj :=
  match jGet (stdDriverPre md dkvs) "properties" with
  | none => .ok (jSet (stdDriverPre md dkvs) "properties"
      (.obj [("gsast", gsastStamp t md)]))
  | some (.obj pkvs) => .ok (jSet (stdDriverPre md dkvs) "properties"
      (.obj (jSet pkvs "gsast" (gsastStamp t md))))
  | some _ => .error "TypeError: driver properties is not an object"

/-- One iteration of the `for run in standardized.get(\x7bruns\x7d, [])` loop.
`run.get(\x7btool\x7d, \x7b\x7d)` and `tool.get(\x7bdriver\x7d, \x7b\x7d)` return a fresh dict
when the key is absent, so updates to it are lost and the run is left
unchanged; a present non-dict value raises. -/
def stdRun (t : String) (md : PluginMeta) : Json → Except String Json
  | .obj rkvs =>
    match jGet rkvs "tool" with
    | none => .ok (.obj rkvs)
    | some (.obj tkvs) =>
      match jGet tkvs "driver" with
      | none => .ok (.obj rkvs)
      | some (.obj dkvs) =>
        match stdDriver t md dkvs with
        | .ok dkvs' =>
            .ok (.obj (jSet rkvs "tool" (.obj (jSet tkvs "driver" (.obj dkvs')))))
        | .error e => .error e
      | some _ => .error "TypeError: item assignment on non-dict driver"
    | some _ => .error "AttributeError: tool has no attribute get"
  | _ => .error "AttributeError: run has no attribute get"

/-- The run loop; the first raising run aborts the whole call. -/
def stdRuns (t : String) (md : PluginMeta) : List Json → Except String (List Json)
  | [] => .ok []
  | r :: rs =>
    match stdRun t md r with
    | .error e => .error e
    | .ok r' =>
      match stdRuns t md rs with
      | .error e => .error e
      | .ok rs' => .ok (r' :: rs')

/-- `SarifValidator.standardize_sarif_output`.  The initial
`json.loads(json.dumps(...))` deep copy is the identity here.  Iterating a
present non-list `runs` value raises unless the iteration is empty (an
empty dict or empty string yields zero iterations and leaves the document
unchanged). -/
def standardizeSarifOutput (t : String) (md : PluginMeta) :
    Json → Except String Json
  | .obj kvs =>
    match jGet kvs "runs" with
    | none => .ok (.obj kvs)
    | some (.arr runs) =>
      match stdRuns t md runs with
      | .ok runs' => .ok (.obj (jSet kvs "runs" (.arr runs')))
      | .error e => .error e
    | some (.obj []) => .ok (.obj kvs)
    | some (.str s) =>
        if s = "" then .ok (.obj kvs)
        else .error "AttributeError: run has no attribute get"
    | some _ => .error "TypeError: runs is not iterable"
  | _ => .error "AttributeError: data has no attribute get"

theorem jGet_stdDriverPre_name (md : PluginMeta) (dkvs : JObj) (n : String)
    (hn : md.name? = some n) :
    jGet (stdDriverPre md dkvs) "name" = some (.str n) := by
  unfold stdDriverPre
  rw [jGet_setOpt_ne _ _ _ _ (by decide), jGet_setOpt_ne _ _ _ _ (by decide),
    hn]
  exact jGet_jSet _ _ _

theorem jGet_stdDriverPre_version (md : PluginMeta) (dkvs : JObj) (n : String)
    (hn : md.version? = some n) :
    jGet (stdDriverPre md dkvs) "version" = some (.str n) := by
  unfold stdDriverPre
  rw [jGet_setOpt_ne _ _ _ _ (by decide), hn]
  exact jGet_jSet _ _ _

theorem jGet_stdDriverPre_home (md : PluginMeta) (dkvs : JObj) (n : String)
    (hn : md.homepage? = some n) :
    jGet (stdDriverPre md dkvs) "informationUri" = some (.str n) := by
  unfold stdDriverPre
  rw [hn]
  exact jGet_jSet _ _ _

/-- A driver produced by a successful `stdDriver` pass is a fixed point of
the next pass. -/
theorem stdDriver_idem (t : String) (md : PluginMeta) (dkvs d' : JObj)
    (h : stdDriver t md dkvs = .ok d') : stdDriver t md d' = .ok d' := by
  have main : ∀ P : JObj, jGet P "gsast" = some (gsastStamp t md) →
      d' = jSet (stdDriverPre md dkvs) "properties" (.obj P) →
      stdDriver t md d' = .ok d' := by
    intro P hP hd'
    have e1 : setOpt d' "name" md.name? = d' := by
      cases hn : md.name? with
      | none => rfl
      | some n =>
        refine jSet_self _ _ _ ?_
        rw [hd', jGet_jSet_ne _ _ _ _ (by decide)]
        exact jGet_stdDriverPre_name md dkvs n hn
    have e2 : setOpt d' "version" md.version? = d' := by
      cases hn : md.version? with
      | none => rfl
      | some n =>
        refine jSet_self _ _ _ ?_
        rw [hd', jGet_jSet_ne _ _ _ _ (by decide)]
        exact jGet_stdDriverPre_version md dkvs n hn
    have e3 : setOpt d' "informationUri" md.homepage? = d' := by
      cases hn : md.homepage? with
      | none => rfl
      | some n =>
        refine jSet_self _ _ _ ?_
        rw [hd', jGet_jSet_ne _ _ _ _ (by decide)]
        exact jGet_stdDriverPre_home md dkvs n hn
    have hpre : stdDriverPre md d' = d' := by
      unfold stdDriverPre
      rw [e1, e2, e3]
    have hgp : jGet d' "properties" = some (.obj P) := by
      rw [hd']; exact jGet_jSet _ _ _
    have hPstable : jSet P "gsast" (gsastStamp t md) = P := jSet_self _ _ _ hP
    unfold stdDriver
    rw [hpre, hgp]
    simp only [hPstable]
    rw [jSet_self _ _ _ hgp]
  unfold stdDriver at h
  rcases hprops : jGet (stdDriverPre md dkvs) "properties" with _ | pv
  · rw [hprops] at h
    simp only [Except.ok.injEq] at h
    exact main _ (by simp [jGet]) h.symm
  · rcases pv with _ | _ | _ | _ | _ | pkvs <;> rw [hprops] at h <;>
      simp only [Except.ok.injEq] at h
    · exact absurd h (by simp)
    · exact absurd h (by simp)
    · exact absurd h (by simp)
    · exact absurd h (by simp)
    · exact absurd h (by simp)
    · exact main _ (jGet_jSet _ _ _) h.symm

/-- A run produced by a successful `stdRun` pass is a fixed point of the
next pass. -/
theorem stdRun_idem (t : String) (md : PluginMeta) (r r' : Json)
    (h : stdRun t md r = .ok r') : stdRun t md r' = .ok r' := by
  rcases r with _ | b | n | s | xs | rkvs
  · simp [stdRun] at h
  · simp [stdRun] at h
  · simp [stdRun] at h
  · simp [stdRun] at h
  · simp [stdRun] at h
  rcases htool : jGet rkvs "tool" with _ | tv
  · simp only [stdRun, htool, Except.ok.injEq] at h
    subst h
    simp only [stdRun, htool]
  · rcases tv with _ | _ | _ | _ | _ | tkvs <;>
      simp only [stdRun, htool] at h
    · simp at h
    · simp at h
    · simp at h
    · simp at h
    · simp at h
    rcases hdrv : jGet tkvs "driver" with _ | dv
    · simp only [hdrv, Except.ok.injEq] at h
      subst h
      simp only [stdRun, htool, hdrv]
    · rcases dv with _ | _ | _ | _ | _ | dkvs <;> simp only [hdrv] at h
      · simp at h
      · simp at h
      · simp at h
      · simp at h
      · simp at h
      rcases hsd : stdDriver t md dkvs with e | d₁ <;> simp only [hsd] at h
      · simp at h
      simp only [Except.ok.injEq] at h
      subst h
      simp only [stdRun, jGet_jSet, stdDriver_idem t md dkvs d₁ hsd,
        jSet_jSet]

theorem stdRuns_idem (t : String) (md : PluginMeta) (rs rs' : List Json)
    (h : stdRuns t md rs = .ok rs') : stdRuns t md rs' = .ok rs' := by
  induction rs generalizing rs' with
  | nil =>
    simp only [stdRuns, Except.ok.injEq] at h
    subst h
    rfl
  | cons r rest ih =>
    unfold stdRuns at h
    rcases h₁ : stdRun t md r with e | r₁ <;> rw [h₁] at h
    · exact absurd h (by simp)
    rcases h₂ : stdRuns t md rest with e | rest₁ <;> rw [h₂] at h
    · exact absurd h (by simp)
    simp only [Except.ok.injEq] at h
    subst h
    unfold stdRuns
    rw [stdRun_idem t md r r₁ h₁, ih rest₁ h₂]

/-- C8: SARIF-gate standardization is idempotent — for every document `x`
and plugin metadata `m` (with the `datetime.now` timestamp made an
explicit parameter `t`), a successful standardization is a fixed point:
`standardize t m (standardize t m x) = standardize t m x`. -/
theorem standardize_sarif_idempotent (t : String) (md : PluginMeta)
    (x y : Json) (h : standardizeSarifOutput t md x = .ok y) :
    standardizeSarifOutput t md y = .ok y := by
  rcases x with _ | b | n | s | xs | kvs
  · simp [standardizeSarifOutput] at h
  · simp [standardizeSarifOutput] at h
  · simp [standardizeSarifOutput] at h
  · simp [standardizeSarifOutput] at h
  · simp [standardizeSarifOutput] at h
  rcases hruns : jGet kvs "runs" with _ | rv
  · simp only [standardizeSarifOutput, hruns, Except.ok.injEq] at h
    subst h
    simp only [standardizeSarifOutput, hruns]
  · rcases rv with _ | _ | _ | s | runs | pkvs <;>
      simp only [standardizeSarifOutput, hruns] at h
    · simp at h
    · simp at h
    · simp at h
    · -- string runs: only the empty string avoids the exception
      by_cases hs : s = ""
      · rw [if_pos hs] at h
        simp only [Except.ok.injEq] at h
        subst h
        simp only [standardizeSarifOutput, hruns, if_pos hs]
      · rw [if_neg hs] at h
        simp at h
    · rcases hsr : stdRuns t md runs with e | runs' <;> simp only [hsr] at h
      · simp at h
      simp only [Except.ok.injEq] at h
      subst h
      simp only [standardizeSarifOutput, jGet_jSet,
        stdRuns_idem t md runs runs' hsr, jSet_jSet]
    · rcases pkvs with _ | ⟨kv, rest⟩
      · simp only [Except.ok.injEq] at h
        subst h
        simp only [standardizeSarifOutput, hruns]
      · simp at h

/-- Concrete metadata dict as built by `PluginManager` for the semgrep
plugin. -/
def mdSemgrepW : PluginMeta :=
  { pluginId? := some "semgrep", name? := some "Semgrep",
    version? := some "1.0.0", author? := some "GSAST Team" }

/-- A small well-formed SARIF document used as concrete test input. -/
def sarifInW : Json :=
  .obj [("$schema", .str "https://s/sarif-2.1.0.json"),
        ("version", .str "2.1.0"),
        ("runs", .arr [.obj [
          ("tool", .obj [("driver", .obj [("name", .str "sg")])]),
          ("results", .arr [])]])]

/-- The standardization of `sarifInW` at timestamp `TS`. -/
def sarifOutW : Json :=
  .obj [("$schema", .str "https://s/sarif-2.1.0.json"),
        ("version", .str "2.1.0"),
        ("runs", .arr [.obj [
          ("tool", .obj [("driver", .obj [
            ("name", .str "Semgrep"),
            ("version", .str "1.0.0"),
            ("properties", .obj [("gsast", gsastStamp "TS" mdSemgrepW)])])]),
          ("results", .arr [])]])]

/-- Witness for C8 at a concrete document and metadata. -/
theorem standardize_sarif_idempotent_witness :
    standardizeSarifOutput "TS" mdSemgrepW sarifInW = .ok sarifOutW ∧
    standardizeSarifOutput "TS" mdSemgrepW sarifOutW = .ok sarifOutW :=
  ⟨rfl, standardize_sarif_idempotent "TS" mdSemgrepW sarifInW sarifOutW rfl⟩

/-! ## Plugin registry (`sastlib/scanner_interface.py`,
`sastlib/plugins/*.py`, `sastlib/plugin_manager.py`)

The three plugin classes shipped with the repository are registered at
startup keyed by their `metadata.plugin_id`. -/

structure ScannerRequirement where
  name : String
  required : Bool
  description : String

structure PluginMetadata where
  plugin_id : String
  name : String
  version : String
  author : String
  description : String

/-- A registered plugin: its metadata and declared requirements. -/
structure PluginInfo where
  metadata : PluginMetadata
  requirements : List ScannerRequirement

/-- `SemgrepPlugin`. -/
def semgrepPlugin : PluginInfo :=
  { metadata :=
      { plugin_id := "semgrep", name := "Semgrep", version := "1.0.0",
        author := "GSAST Team",
        description :=
          "Static analysis security scanner using custom and community rules" },
    requirements :=
      [{ name := "rule_files", required := true,
         description := "YAML/JSON rule files for Semgrep static analysis" },
       { name := "rules_dir", required := true,
         description := "Directory containing extracted rule files" }] }

/-- `TrufflehogPlugin`. -/
def trufflehogPlugin : PluginInfo :=
  { metadata :=
      { plugin_id := "trufflehog", name := "Trufflehog", version := "1.0.0",
        author := "GSAST Team",
        description :=
          "Git repository secrets scanner that detects credentials and API keys" },
    requirements :=
      [{ name := "full_git_history", required := true,
         description :=
           "Full git history required for scanning secrets in commit history" }] }

/-- `DependencyConfusionPlugin`. -/
def dependencyConfusionPlugin : PluginInfo :=
  { metadata :=
      { plugin_id := "dependency-confusion",
        name := "Dependency Confusion Scanner", version := "1.0.0",
        author := "GSAST Team",
        description :=
          "Detects potential dependency confusion vulnerabilities in package manifests" },
    requirements := [] }

/-- `PluginManager._load_plugins`: register each discovered plugin under
`metadata.plugin_id`, skipping ids already registered (first wins). -/
def loadPlugins : List PluginInfo → List (String × PluginInfo) → List (String × PluginInfo)
  | [], acc => acc
  | p :: ps, acc =>
    if jHasKey acc p.metadata.plugin_id then loadPlugins ps acc
    else loadPlugins ps (acc ++ [(p.metadata.plugin_id, p)])

/-- The registry holding the repository's three entry-point plugins. -/
def pluginRegistry : List (String × PluginInfo) :=
  loadPlugins [semgrepPlugin, trufflehogPlugin, dependencyConfusionPlugin] []

/-- `PluginManager.get_plugin`. -/
def getPlugin (reg : List (String × PluginInfo)) (id : String) :
    Option PluginInfo :=
  jGet reg id

/-- `PluginManager.get_plugin_requirements`: build the id → requirements
dict, skipping unknown ids. -/
def getPluginRequirementsAux (reg : List (String × PluginInfo)) :
    List String → List (String × List ScannerRequirement) →
    List (String × List ScannerRequirement)
  | [], acc => acc
  | id :: rest, acc =>
    match getPlugin reg id with
    | none => getPluginRequirementsAux reg rest acc
    | some p => getPluginRequirementsAux reg rest (jSet acc id p.requirements)

def getPluginRequirements (reg : List (String × PluginInfo))
    (ids : List String) : List (String × List ScannerRequirement) :=
  getPluginRequirementsAux reg ids []

/-- Whether a requirement list declares `full_git_history` as required. -/
def declaresFullHistory (reqs : List ScannerRequirement) : Bool :=
  reqs.any fun req => req.name == "full_git_history" && req.required

/-- `PluginManager.needs_full_git_history`. -/
def needsFullGitHistory (reg : List (String × PluginInfo))
    (ids : List String) : Bool :=
  (getPluginRequirements reg ids).any fun kv => declaresFullHistory kv.2

/-! ## Worker clone strategy (`worker.py:process_task`) -/

/-- `scan_secrets = 'trufflehog' in scanners`. -/
def scanSecrets (scanners : List String) : Bool :=
  scanners.contains "trufflehog"

/-- `use_partial_git_clone = not scan_secrets`. -/
def usePartialGitClone (scanners : List String) : Bool :=
  ! scanSecrets scanners

/-- The per-id contribution to `needs_full_git_history`. -/
def idNeedsFullHistory (reg : List (String × PluginInfo)) (id : String) :
    Bool :=
  match getPlugin reg id with
  | some p => declaresFullHistory p.requirements
  | none => false

/-- Membership after a dict assignment: any binding of `jSet acc k v` is
either an old binding or the new one. -/
theorem mem_jSet {β : Type} (acc : List (κ × β)) (k : κ) (v : β)
    (kv : κ × β) (h : kv ∈ jSet acc k v) : kv ∈ acc ∨ kv = (k, v) := by
  induction acc with
  | nil => simpa [jSet] using h
  | cons hd tl ih =>
    obtain ⟨k₀, v₀⟩ := hd
    by_cases hk : k₀ = k
    · rw [jSet, if_pos hk] at h
      rcases List.mem_cons.mp h with h | h
      · right; rw [h, hk]
      · left; exact List.mem_cons_of_mem _ h
    · rw [jSet, if_neg hk] at h
      rcases List.mem_cons.mp h with h | h
      · left; rw [h]; exact List.mem_cons_self _ _
      · rcases ih h with h | h
        · left; exact List.mem_cons_of_mem _ h
        · right; exact h

theorem any_jSet (p : List ScannerRequirement → Bool)
    (acc : List (String × List ScannerRequirement))
    (k : String) (v : List ScannerRequirement)
    (hdet : ∀ kv ∈ acc, kv.1 = k → kv.2 = v) :
    (jSet acc k v).any (fun kv => p kv.2)
      = (acc.any (fun kv => p kv.2) || p v) := by
  induction acc with
  | nil => simp [jSet]
  | cons hd tl ih =>
    obtain ⟨k₀, v₀⟩ := hd
    by_cases hk : k₀ = k
    · have hv₀ : v₀ = v := hdet (k₀, v₀) (List.mem_cons_self _ _) hk
      subst hv₀
      rw [jSet, if_pos hk]
      simp only [List.any_cons]
      cases p v₀ <;> simp
    · have hdet' : ∀ kv ∈ tl, kv.1 = k → kv.2 = v := fun kv hkv =>
        hdet kv (List.mem_cons_of_mem _ hkv)
      rw [jSet, if_neg hk]
      simp only [List.any_cons, ih hdet', Bool.or_assoc]

theorem getPluginRequirementsAux_any (p : List ScannerRequirement → Bool)
    (ids : List String)
    (acc : List (String × List ScannerRequirement))
    (hinv : ∀ kv ∈ acc, (getPlugin pluginRegistry kv.1).map
      PluginInfo.requirements = some kv.2) :
    (getPluginRequirementsAux pluginRegistry ids acc).any
        (fun kv => p kv.2)
      = (acc.any (fun kv => p kv.2)
          || ids.any (fun id =>
              match getPlugin pluginRegistry id with
              | some pl => p pl.requirements
              | none => false)) := by
  induction ids generalizing acc with
  | nil => simp [getPluginRequirementsAux]
  | cons id rest ih =>
    rcases hp : getPlugin pluginRegistry id with _ | pl
    · rw [getPluginRequirementsAux, hp]
      rw [ih acc hinv]
      simp [hp]
    · rw [getPluginRequirementsAux, hp]
      have hinv' : ∀ kv ∈ jSet acc id pl.requirements,
          (getPlugin pluginRegistry kv.1).map PluginInfo.requirements
            = some kv.2 := by
        intro kv hkv
        rcases mem_jSet acc id pl.requirements kv hkv with h | h
        · exact hinv kv h
        · rw [h]; simp [hp]
      rw [ih _ hinv']
      have hdet : ∀ kv ∈ acc, kv.1 = id → kv.2 = pl.requirements := by
        intro kv hkv hk
        have := hinv kv hkv
        rw [hk, hp] at this
        simpa using this.symm
      rw [any_jSet p acc id pl.requirements hdet]
      simp [hp, Bool.or_assoc, Bool.or_comm, Bool.or_left_comm]

/-- The per-id contribution over the concrete registry: exactly the
trufflehog plugin declares a required `full_git_history`. -/
theorem idNeedsFullHistory_eq (id : String) :
    idNeedsFullHistory pluginRegistry id = (id == "trufflehog") := by
  by_cases h1 : id = "semgrep"
  · subst h1; rfl
  by_cases h2 : id = "trufflehog"
  · subst h2; rfl
  by_cases h3 : id = "dependency-confusion"
  · subst h3; rfl
  have e1 : ¬ ("semgrep" = id) := fun h => h1 h.symm
  have e2 : ¬ ("trufflehog" = id) := fun h => h2 h.symm
  have e3 : ¬ ("dependency-confusion" = id) := fun h => h3 h.symm
  rw [idNeedsFullHistory]
  rw [show getPlugin pluginRegistry id = none by
    simp [getPlugin, pluginRegistry, loadPlugins, jHasKey, jGet,
      semgrepPlugin, trufflehogPlugin, dependencyConfusionPlugin, e1, e2, e3]]
  simp [beq_eq_false_iff_ne, h2]

theorem any_beq_trufflehog (l : List String) :
    (l.any fun id => id == "trufflehog") = l.contains "trufflehog" := by
  induction l with
  | nil => rfl
  | cons a l ih =>
    simp only [List.any_cons, List.contains_cons, ih]
    congr 1
    by_cases h : a = "trufflehog"
    · subst h; rfl
    · have h' : ¬ "trufflehog" = a := fun hh => h hh.symm
      rw [beq_false_of_ne h, beq_false_of_ne h']

/-- C6: the worker clones shallowly exactly when the registry's
`needs_full_git_history` over the job's scanner ids is false — the
hard-coded `use_partial_git_clone = not ('trufflehog' in scanners)`
coincides with `not needs_full_git_history(scanner_ids)` because the
trufflehog plugin is the only registered plugin declaring a required
`full_git_history` requirement. -/
theorem worker_shallow_clone_iff_not_full_history (scanners : List String) :
    usePartialGitClone scanners
      = ! needsFullGitHistory pluginRegistry scanners := by
  rw [usePartialGitClone, scanSecrets, needsFullGitHistory,
    getPluginRequirements,
    getPluginRequirementsAux_any declaresFullHistory scanners []
      (by intro kv hkv; simp at hkv)]
  simp only [List.any_nil, Bool.false_or]
  congr 1
  have he : (fun id =>
      match getPlugin pluginRegistry id with
      | some pl => declaresFullHistory pl.requirements
      | none => false)
      = (fun id => id == "trufflehog") :=
    funext fun id => idNeedsFullHistory_eq id
  rw [he]
  exact (any_beq_trufflehog scanners).symm

/-! ## Python string operators used by the results store -/

/-- Whether `needle` starts the character list `hay`. -/
def leadMatch : List Char → List Char → Bool
  | [], _ => true
  | _ :: _, [] => false
  | a :: as, b :: bs => a == b && leadMatch as bs

/-- Whether `needle` occurs contiguously in `hay`. -/
def subMatch (needle : List Char) : List Char → Bool
  | [] => leadMatch needle []
  | c :: rest => leadMatch needle (c :: rest) || subMatch needle rest

/-- Python `needle in hay` on strings: contiguous substring test. -/
def pyIn (needle hay : String) : Bool := subMatch needle.data hay.data

/-- Python `hay.endswith(tail)`. -/
def pyEndsWith (hay tail : String) : Bool :=
  leadMatch tail.data.reverse hay.data.reverse

/-! ## Results store (`sastlib/results_storage.py`)

The scans Redis database is modelled by its two families of keys: the
`scan_id:results:project_url` hashes (keyed here by the pair, which is
what the string key `f"\x7bscan_id\x7d:results:\x7bproject_url\x7d"` encodes given
that scan ids `SCAN-...` contain no colon) and the `scan_id:projects`
sets (kept in insertion order).  SARIF files on disk are passed in as
already-read `Option Json` values (`none` = unreadable file), and
`json.dumps`/`json.loads` of a stored results map is the identity. -/

/-- The fields `store_scan_results` writes into a results hash. -/
structure ProjectRecord where
  results : List (String × Json)
  project_url : String
  scanner_type : String
  updated_at : Nat

structure ScansStore where
  resultsHash : List ((String × String) × ProjectRecord)
  projectsSet : List (String × List String)

def emptyScansStore : ScansStore := { resultsHash := [], projectsSet := [] }

/-- `sadd`: append the member if it is not yet in the set. -/
def sadd (sets : List (String × List String)) (k v : String) :
    List (String × List String) :=
  let cur := (jGet sets k).getD []
  if v ∈ cur then sets else jSet sets k (cur ++ [v])

/-- The `for _, sarif_path in results_paths.items()` read loop: aborts on
the first unreadable file, otherwise keeps the last file's JSON content
(each iteration overwrites `stored_results[scanner_type]`). -/
def scanFiles (acc : Option Json) :
    List (String × Option Json) → Except Unit (Option Json)
  | [] => .ok acc
  | (_, none) :: _ => .error ()
  | (_, some j) :: rest => scanFiles (some j) rest

/-- `store_scan_results`. -/
def storeScanResults (st : ScansStore) (now : Nat)
    (scanId projectUrl scannerType : String)
    (resultsPaths : List (String × Option Json)) : Bool × ScansStore :=
  match scanFiles none resultsPaths with
  | .error _ => (false, st)
  | .ok acc =>
    -- existing 'results' field, decoded and merged via dict.update
    let merged : List (String × Json) :=
      match jGet st.resultsHash (scanId, projectUrl) with
      | some rec0 =>
        (match acc with
         | some j => jSet rec0.results scannerType j
         | none => rec0.results)
      | none =>
        (match acc with
         | some j => [(scannerType, j)]
         | none => [])
    let rec1 : ProjectRecord :=
      { results := merged, project_url := projectUrl,
        scanner_type := scannerType, updated_at := now }
    let st1 : ScansStore :=
      { resultsHash := jSet st.resultsHash (scanId, projectUrl) rec1,
        projectsSet := st.projectsSet }
    (true, { st1 with projectsSet := sadd st1.projectsSet scanId projectUrl })

/-- `JSONPATH_AVAILABLE` in `results_storage.py`: the import is
unconditional, so the flag is the constant `True`. -/
def jsonpathAvailable : Bool := true

/-- The third-party jsonpath library, abstracted: parsing a query either
fails (raises) or yields an evaluator which itself may raise on a given
document. -/
def JsonpathOracle := String → Option (Json → Except Unit (List Json))

/-- The `for scanner_type, scanner_data in results.items()` loop of
`_apply_jsonpath_filter`: a raised evaluation error anywhere aborts. -/
def collectMatches (f : Json → Except Unit (List Json)) :
    List (String × Json) → Except Unit (List (String × Json))
  | [] => .ok []
  | (s, d) :: rest =>
    match f d with
    | .error e => .error e
    | .ok ms =>
      match collectMatches f rest with
      | .error e => .error e
      | .ok tail => .ok (if ms.isEmpty then tail else (s, .arr ms) :: tail)

/-- `_apply_jsonpath_filter`: any exception — a parse error on the query
as well as a runtime error during `find` — is caught and the original
results are returned. -/
def applyJsonpathFilter (oracle : JsonpathOracle)
    (results : List (String × Json)) (q : String) :
    List (String × Json) :=
  match oracle q with
  | none => results
  | some f =>
    match collectMatches f results with
    | .error _ => results
    | .ok filtered => filtered

/-- Python truthiness of an optional string parameter
(`if project_filter:`): absent and empty are both falsy. -/
def optFilter : Option String → Option String
  | none => none
  | some s => if s = "" then none else some s

/-- The project-filter predicate of `get_scan_results` (line 103). -/
def keepUrl (pf url : String) : Bool :=
  pyIn pf url || pyEndsWith url ("/" ++ pf ++ ".git")
    || pyEndsWith url (":" ++ pf ++ ".git")

/-- One retained project in the response envelope. -/
structure ProjEntry where
  results : List (String × Json)
  updatedAt : Option Nat

/-- Return value of `get_scan_results`: `None`, the library-missing error
envelope, or the `\x7bscan_id, projects, message?\x7d` envelope. -/
inductive GetResult where
  | notFound
  | errorEnvelope (msg : String)
  | envelope (scanId : String) (projects : List (String × ProjEntry))
      (message : Option String)

def isErrorEnvelope : GetResult → Bool
  | .errorEnvelope _ => true
  | _ => false

/-- The per-project body of the `for project_url in project_urls` loop:
`none` means the project is skipped (`continue`). -/
def projectEntry (oracle : JsonpathOracle) (st : ScansStore)
    (scanId : String) (scannerFilter jsonpathQuery : Option String)
    (url : String) : Option ProjEntry :=
  match jGet st.resultsHash (scanId, url) with
  | none => none
  | some rec0 =>
    let results₀ := rec0.results
    let step1 : Option (List (String × Json)) :=
      match optFilter scannerFilter with
      | none => some results₀
      | some sf =>
        let filtered := results₀.filter fun kv => pyIn sf kv.1
        if filtered.isEmpty then none else some filtered
    match step1 with
    | none => none
    | some results₁ =>
      match optFilter jsonpathQuery with
      | none => some { results := results₁, updatedAt := some rec0.updated_at }
      | some q =>
        let results₂ := applyJsonpathFilter oracle results₁ q
        if results₂.isEmpty then none
        else some { results := results₂, updatedAt := some rec0.updated_at }

def collectProjects (oracle : JsonpathOracle) (st : ScansStore)
    (scanId : String) (scannerFilter jsonpathQuery : Option String) :
    List String → List (String × ProjEntry)
  | [] => []
  | url :: rest =>
    match projectEntry oracle st scanId scannerFilter jsonpathQuery url with
    | none => collectProjects oracle st scanId scannerFilter jsonpathQuery rest
    | some entry =>
        (url, entry) ::
          collectProjects oracle st scanId scannerFilter jsonpathQuery rest

/-- `get_scan_results`.  The unreachable `jsonpath-ng not available`
error envelope is kept in the code shape; since `jsonpathAvailable` is
the constant `true`, hoisting that check out of the project loop is
exact. -/
def getScanResults (oracle : JsonpathOracle) (st : ScansStore)
    (scanId : String)
    (projectFilter scannerFilter jsonpathQuery : Option String) :
    GetResult :=
  let projectUrls := (jGet st.projectsSet scanId).getD []
  if projectUrls.isEmpty then .notFound
  else
    match optFilter projectFilter with
    | some pf =>
      let filtered := projectUrls.filter (keepUrl pf)
      if filtered.isEmpty then
        .envelope scanId []
          (some ("No projects found matching filter: " ++ pf))
      else if (optFilter jsonpathQuery).isSome && ! jsonpathAvailable then
        .errorEnvelope
          "JSONPath queries require jsonpath-ng library. Install with: pip install jsonpath-ng"
      else
        .envelope scanId
          (collectProjects oracle st scanId scannerFilter jsonpathQuery
            filtered) none
    | none =>
      if (optFilter jsonpathQuery).isSome && ! jsonpathAvailable then
        .errorEnvelope
          "JSONPath queries require jsonpath-ng library. Install with: pip install jsonpath-ng"
      else
        .envelope scanId
          (collectProjects oracle st scanId scannerFilter jsonpathQuery
            projectUrls) none

/-! ### C7: project filter semantics -/

/-- C7 counterexample: the claim asserts that filter `foo.git` keeps
neither stored URL, but the substring branch of the disjunction keeps
`https://h/acme/foo.git` (`"foo.git" in url` is true), even though both
`.git`-suffix branches fail. -/
theorem project_filter_foogit_counterexample :
    keepUrl "foo.git" "https://h/acme/foo.git" = true ∧
    pyIn "foo.git" "https://h/acme/foo.git" = true ∧
    pyEndsWith "https://h/acme/foo.git" ("/" ++ "foo.git" ++ ".git") = false ∧
    pyEndsWith "https://h/acme/foo.git" (":" ++ "foo.git" ++ ".git") = false := by
  decide

/-- C7 (amended): a stored URL survives a non-empty project filter `pf`
iff it contains `pf` as a substring, or ends with `/<pf>.git`, or ends
with `:<pf>.git`; filter `foo` keeps both example URLs, while filter
`foo.git` keeps `https://h/acme/foo.git` (substring match) but not
`git@h:acme/foobar.git`. -/
theorem project_filter_semantics :
    (∀ (pf url : String) (urls : List String), pf ≠ "" →
      (url ∈ urls.filter (keepUrl pf) ↔ url ∈ urls ∧
        (pyIn pf url || pyEndsWith url ("/" ++ pf ++ ".git")
          || pyEndsWith url (":" ++ pf ++ ".git")) = true))
    ∧ keepUrl "foo" "https://h/acme/foo.git" = true
    ∧ keepUrl "foo" "git@h:acme/foobar.git" = true
    ∧ keepUrl "foo.git" "https://h/acme/foo.git" = true
    ∧ keepUrl "foo.git" "git@h:acme/foobar.git" = false := by
  refine ⟨?_, by decide, by decide, by decide, by decide⟩
  intro pf url urls _
  simp [List.mem_filter, keepUrl]

/-- Witness for C7 at concrete inputs. -/
theorem project_filter_semantics_witness :
    "https://h/acme/foo.git"
      ∈ ["https://h/acme/foo.git", "git@h:acme/foobar.git"].filter
          (keepUrl "foo") :=
  (project_filter_semantics.1 "foo" "https://h/acme/foo.git"
      ["https://h/acme/foo.git", "git@h:acme/foobar.git"]
      (by decide)).mpr ⟨by simp, by decide⟩

/-! ### C10: last rule entry wins within one store call -/

theorem scanFiles_all_readable (files : List (String × Json))
    (acc : Option Json) :
    scanFiles acc (files.map fun kv => (kv.1, some kv.2))
      = .ok (match files.getLast? with
             | some kv => some kv.2
             | none => acc) := by
  induction files generalizing acc with
  | nil => rfl
  | cons kv rest ih =>
    rcases rest with _ | ⟨kv', rest'⟩
    · rfl
    · rw [List.map_cons, scanFiles, ih]
      rfl

/-- C10: when one `store_scan_results` call carries several rule entries,
the payload stored under the scanner id is exactly the JSON content of
the last entry iterated, and no other results-hash key is touched. -/
theorem store_last_rule_entry_wins (st : ScansStore) (now : Nat)
    (scanId url scanner : String) (files : List (String × Json))
    (jlast : Json)
    (_hlen : 1 < files.length)
    (hlast : (files.getLast?).map Prod.snd = some jlast) :
    (storeScanResults st now scanId url scanner
      (files.map fun kv => (kv.1, some kv.2))).1 = true ∧
    (∃ rec1, jGet (storeScanResults st now scanId url scanner
        (files.map fun kv => (kv.1, some kv.2))).2.resultsHash
          (scanId, url) = some rec1
      ∧ jGet rec1.results scanner = some jlast) ∧
    (∀ k, k ≠ (scanId, url) →
      jGet (storeScanResults st now scanId url scanner
        (files.map fun kv => (kv.1, some kv.2))).2.resultsHash k
        = jGet st.resultsHash k) := by
  rcases hkv : files.getLast? with _ | kv
  · rw [hkv] at hlast; exact Option.noConfusion hlast
  rw [hkv] at hlast
  simp only [Option.map_some', Option.some.injEq] at hlast
  subst hlast
  have hscan := scanFiles_all_readable files none
  rw [hkv] at hscan
  rw [storeScanResults, hscan]
  rcases hrec0 : jGet st.resultsHash (scanId, url) with _ | rec0 <;>
    simp only [hrec0]
  · exact ⟨trivial, ⟨_, jGet_jSet _ _ _, by simp [jGet]⟩,
      fun k hk => jGet_jSet_ne _ _ _ _ (fun hh => hk hh.symm)⟩
  · exact ⟨trivial, ⟨_, jGet_jSet _ _ _, jGet_jSet _ _ _⟩,
      fun k hk => jGet_jSet_ne _ _ _ _ (fun hh => hk hh.symm)⟩

/-- Witness for C10 at a concrete two-entry call. -/
theorem store_last_rule_entry_wins_witness :
    (∃ rec1, jGet (storeScanResults emptyScansStore 7 "SCAN-1" "u" "semgrep"
        ([("r1", Json.str "first"), ("r2", Json.str "second")].map
          fun kv => (kv.1, some kv.2))).2.resultsHash
          ("SCAN-1", "u") = some rec1
      ∧ jGet rec1.results "semgrep" = some (Json.str "second")) :=
  (store_last_rule_entry_wins emptyScansStore 7 "SCAN-1" "u" "semgrep"
    [("r1", Json.str "first"), ("r2", Json.str "second")]
    (Json.str "second") (by decide) rfl).2.1

/-! ### C5: store / get round trip -/

/-- One worker store call: all SARIF files readable (their contents given
directly). -/
structure StoreOp where
  url : String
  scanner : String
  files : List (String × Json)
  time : Nat

def applyOp (scanId : String) (st : ScansStore) (op : StoreOp) : ScansStore :=
  (storeScanResults st op.time scanId op.url op.scanner
    (op.files.map fun kv => (kv.1, some kv.2))).2

def runOps (scanId : String) (st : ScansStore) : List StoreOp → ScansStore
  | [] => st
  | op :: rest => runOps scanId (applyOp scanId st op) rest

/-- The payload a store call writes for its scanner (the last rule
entry's content), `none` when the call carries no entries. -/
def lastPayload (files : List (String × Json)) : Option Json :=
  (files.getLast?).map Prod.snd

/-- The last payload written by a sequence of calls for a
`(project_url, scanner_id)` pair. -/
def lastWritten : List StoreOp → String → String → Option Json
  | [], _, _ => none
  | op :: rest, url, scanner =>
    match lastWritten rest url scanner with
    | some j => some j
    | none =>
      if op.url = url ∧ op.scanner = scanner then lastPayload op.files
      else none

/-- The payload currently stored for a pair. -/
def pairPayload (st : ScansStore) (scanId url scanner : String) :
    Option Json :=
  match jGet st.resultsHash (scanId, url) with
  | some rec0 => jGet rec0.results scanner
  | none => none

def projectsOf (st : ScansStore) (scanId : String) : List String :=
  (jGet st.projectsSet scanId).getD []

theorem matchLast_eq_lastPayload (files : List (String × Json)) :
    (match files.getLast? with
     | some kv => some kv.2
     | none => (none : Option Json)) = lastPayload files := by
  rw [lastPayload]
  cases files.getLast? <;> rfl

theorem pairPayload_applyOp (scanId : String) (st : ScansStore)
    (op : StoreOp) (url scanner : String) :
    pairPayload (applyOp scanId st op) scanId url scanner
      = match (if op.url = url ∧ op.scanner = scanner
               then lastPayload op.files else none) with
        | some j => some j
        | none => pairPayload st scanId url scanner := by
  rw [applyOp, storeScanResults, scanFiles_all_readable,
    matchLast_eq_lastPayload]
  by_cases hu : op.url = url
  · subst hu
    rcases hrec0 : jGet st.resultsHash (scanId, op.url) with _ | rec0 <;>
      simp only [hrec0] <;>
      rcases hacc : lastPayload op.files with _ | j <;>
      by_cases hs : op.scanner = scanner
    · subst hs
      simp [pairPayload, jGet_jSet, hrec0, jGet]
    · simp [pairPayload, jGet_jSet, hrec0, jGet, hs]
    · subst hs
      simp [pairPayload, jGet_jSet, hrec0, jGet]
    · simp [pairPayload, jGet_jSet, hrec0, jGet, hs]
    · subst hs
      simp [pairPayload, jGet_jSet, hrec0]
    · simp [pairPayload, jGet_jSet, hrec0, hs]
    · subst hs
      simp [pairPayload, jGet_jSet, hrec0]
    · simp [pairPayload, jGet_jSet, hrec0, hs, jGet_jSet_ne _ _ _ _ hs]
  · have hkey : (scanId, op.url) ≠ (scanId, url) := by
      simp [Prod.ext_iff, hu]
    simp only [pairPayload, jGet_jSet_ne _ _ _ _ hkey, hu, false_and,
      if_false]

theorem pairPayload_runOps (scanId : String) (ops : List StoreOp)
    (st : ScansStore) (url scanner : String) :
    pairPayload (runOps scanId st ops) scanId url scanner
      = match lastWritten ops url scanner with
        | some j => some j
        | none => pairPayload st scanId url scanner := by
  induction ops generalizing st with
  | nil => rfl
  | cons op rest ih =>
    rw [runOps, ih, lastWritten]
    rcases lastWritten rest url scanner with _ | j
    · exact pairPayload_applyOp scanId st op url scanner
    · rfl

theorem projectsSet_applyOp (scanId : String) (st : ScansStore)
    (op : StoreOp) :
    (applyOp scanId st op).projectsSet = sadd st.projectsSet scanId op.url := by
  rw [applyOp, storeScanResults, scanFiles_all_readable]

theorem mem_sadd_mono (sets : List (String × List String)) (k v url : String)
    (h : url ∈ (jGet sets k).getD []) :
    url ∈ (jGet (sadd sets k v) k).getD [] := by
  rw [sadd]
  by_cases hmem : v ∈ (jGet sets k).getD []
  · rw [if_pos hmem]; exact h
  · rw [if_neg hmem, jGet_jSet, Option.getD_some]
    exact List.mem_append_left _ h

theorem mem_sadd_self (sets : List (String × List String)) (k v : String) :
    v ∈ (jGet (sadd sets k v) k).getD [] := by
  rw [sadd]
  by_cases hmem : v ∈ (jGet sets k).getD []
  · rw [if_pos hmem]; exact hmem
  · rw [if_neg hmem, jGet_jSet, Option.getD_some]
    exact List.mem_append_right _ (List.mem_singleton.mpr rfl)

theorem mem_projects_applyOp (scanId : String) (st : ScansStore)
    (op : StoreOp) (url : String) (h : url ∈ projectsOf st scanId) :
    url ∈ projectsOf (applyOp scanId st op) scanId := by
  rw [projectsOf, projectsSet_applyOp]
  exact mem_sadd_mono st.projectsSet scanId op.url url h

theorem mem_projects_applyOp_self (scanId : String) (st : ScansStore)
    (op : StoreOp) :
    op.url ∈ projectsOf (applyOp scanId st op) scanId := by
  rw [projectsOf, projectsSet_applyOp]
  exact mem_sadd_self st.projectsSet scanId op.url

theorem mem_projects_runOps (scanId : String) (ops : List StoreOp)
    (st : ScansStore) (url : String) (h : url ∈ projectsOf st scanId) :
    url ∈ projectsOf (runOps scanId st ops) scanId := by
  induction ops generalizing st with
  | nil => exact h
  | cons op rest ih =>
    exact ih _ (mem_projects_applyOp scanId st op url h)

theorem lastWritten_mem_projects (scanId : String) (ops : List StoreOp)
    (st : ScansStore) (url scanner : String) (j : Json)
    (h : lastWritten ops url scanner = some j) :
    url ∈ projectsOf (runOps scanId st ops) scanId := by
  induction ops generalizing st with
  | nil => exact Option.noConfusion h
  | cons op rest ih =>
    rw [lastWritten] at h
    rcases hrest : lastWritten rest url scanner with _ | j'
    · rw [hrest] at h
      have hcond : op.url = url ∧ op.scanner = scanner := by
        by_cases hc : op.url = url ∧ op.scanner = scanner
        · exact hc
        · rw [if_neg hc] at h; exact Option.noConfusion h
      rw [runOps]
      refine mem_projects_runOps scanId rest _ url ?_
      rw [← hcond.1]
      exact mem_projects_applyOp_self scanId st op
    · rw [hrest] at h
      simp only [Option.some.injEq] at h
      subst h
      exact ih _ hrest

theorem mem_collectProjects_nofilters (oracle : JsonpathOracle)
    (st : ScansStore) (scanId : String) (urls : List String) (url : String)
    (rec0 : ProjectRecord) (hmem : url ∈ urls)
    (hrec : jGet st.resultsHash (scanId, url) = some rec0) :
    (url, ProjEntry.mk rec0.results (some rec0.updated_at))
      ∈ collectProjects oracle st scanId none none urls := by
  induction urls with
  | nil => exact absurd hmem (List.not_mem_nil url)
  | cons u rest ih =>
    rcases List.mem_cons.mp hmem with h | h
    · subst h
      rw [collectProjects]
      rw [show projectEntry oracle st scanId none none url
          = some (ProjEntry.mk rec0.results (some rec0.updated_at)) by
        simp [projectEntry, hrec, optFilter]]
      exact List.mem_cons_self _ _
    · rw [collectProjects]
      rcases projectEntry oracle st scanId none none u with _ | entry
      · exact ih h
      · exact List.mem_cons_of_mem _ (ih h)

/-- C5: after any sequence of store calls under one scan id, a
filter-free `get` returns an envelope in which every
`(project_url, scanner_id)` pair ever written appears with its
last-written payload; other scanners' entries for the same project are
retained across stores. -/
theorem store_get_returns_last_written (oracle : JsonpathOracle)
    (scanId : String) (ops : List StoreOp) (url scanner : String)
    (j : Json) (hlw : lastWritten ops url scanner = some j) :
    ∃ projects,
      getScanResults oracle (runOps scanId emptyScansStore ops) scanId
          none none none = .envelope scanId projects none
      ∧ ∃ entry, (url, entry) ∈ projects
          ∧ jGet entry.results scanner = some j := by
  have hpp : pairPayload (runOps scanId emptyScansStore ops) scanId url
      scanner = some j := by
    rw [pairPayload_runOps, hlw]
  have hmem : url ∈ projectsOf (runOps scanId emptyScansStore ops) scanId :=
    lastWritten_mem_projects scanId ops emptyScansStore url scanner j hlw
  rcases hrec : jGet (runOps scanId emptyScansStore ops).resultsHash
      (scanId, url) with _ | rec0
  · rw [pairPayload, hrec] at hpp
    exact Option.noConfusion hpp
  rw [pairPayload, hrec] at hpp
  have hne : ¬ (projectsOf (runOps scanId emptyScansStore ops)
      scanId).isEmpty := by
    rcases hl : projectsOf (runOps scanId emptyScansStore ops) scanId with
      _ | ⟨a, l⟩
    · rw [hl] at hmem; exact absurd hmem (List.not_mem_nil url)
    · simp
  refine ⟨collectProjects oracle (runOps scanId emptyScansStore ops)
      scanId none none
      (projectsOf (runOps scanId emptyScansStore ops) scanId), ?_,
    ProjEntry.mk rec0.results (some rec0.updated_at), ?_, hpp⟩
  · have hne' : ¬ ((jGet (runOps scanId emptyScansStore ops).projectsSet
        scanId).getD []).isEmpty = true := hne
    simp only [getScanResults]
    rw [if_neg hne']
    rfl
  · exact mem_collectProjects_nofilters oracle _ scanId _ url rec0 hmem hrec

/-- Witness for C5: two scanners store for one project; the first
scanner's payload is retained after the second scanner's store. -/
theorem store_get_returns_last_written_witness :
    ∃ projects,
      getScanResults (fun _ => none)
          (runOps "SCAN-1" emptyScansStore
            [⟨"u", "semgrep", [("r", Json.str "sg")], 1⟩,
             ⟨"u", "trufflehog", [("r", Json.str "th")], 2⟩]) "SCAN-1"
          none none none = .envelope "SCAN-1" projects none
      ∧ ∃ entry, ("u", entry) ∈ projects
          ∧ jGet entry.results "semgrep" = some (Json.str "sg") :=
  store_get_returns_last_written (fun _ => none) "SCAN-1"
    [⟨"u", "semgrep", [("r", Json.str "sg")], 1⟩,
     ⟨"u", "trufflehog", [("r", Json.str "th")], 2⟩] "u" "semgrep"
    (Json.str "sg") rfl

/-! ### C3: jsonpath query failure handling -/

/-- A store holding one project with one semgrep payload, used as the
concrete C3 scenario. -/
def c3Store : ScansStore :=
  (storeScanResults emptyScansStore 5 "S" "u" "semgrep"
    [("r", some (Json.str "sarif"))]).2

/-- C3 counterexample: with a query the jsonpath library fails to parse
(the oracle raises on every expression), `get_scan_results` does not
return an error envelope — it returns the ordinary envelope carrying the
unfiltered per-scanner results, identical to the query-free call. -/
theorem jsonpath_malformed_counterexample :
    getScanResults (fun _ => none) c3Store "S" none none (some "$[")
      = GetResult.envelope "S"
          [("u", ProjEntry.mk [("semgrep", Json.str "sarif")] (some 5))]
          none
    ∧ isErrorEnvelope
        (getScanResults (fun _ => none) c3Store "S" none none (some "$["))
        = false
    ∧ getScanResults (fun _ => none) c3Store "S" none none (some "$[")
      = getScanResults (fun _ => none) c3Store "S" none none none :=
  ⟨rfl, rfl, rfl⟩

/-- C3 (amended): a jsonpath failure — whether the query fails to parse
or its evaluation raises at runtime — is caught inside
`_apply_jsonpath_filter`, which falls back to the unfiltered per-scanner
results; the single error envelope is returned only when the jsonpath
library is unavailable, which cannot happen since it is imported
unconditionally (`JSONPATH_AVAILABLE` is constantly true), so no query
ever yields the error envelope. -/
theorem jsonpath_error_fallback :
    (∀ (oracle : JsonpathOracle) (results : List (String × Json))
      (q : String),
      (oracle q = none
        ∨ ∃ f, oracle q = some f ∧ collectMatches f results = .error ()) →
      applyJsonpathFilter oracle results q = results)
    ∧ (∀ (oracle : JsonpathOracle) (st : ScansStore) (scanId : String)
        (pf sf q : Option String),
        isErrorEnvelope (getScanResults oracle st scanId pf sf q) = false) := by
  constructor
  · intro oracle results q h
    rcases h with h | ⟨f, hf, hc⟩
    · simp [applyJsonpathFilter, h]
    · simp [applyJsonpathFilter, hf, hc]
  · intro oracle st scanId pf sf q
    have hQ : ∀ b : Bool, (b && ! jsonpathAvailable) = false := by
      intro b; simp [jsonpathAvailable]
    simp only [getScanResults, hQ, Bool.false_eq_true, if_false]
    split
    · rfl
    · split
      · split
        · rfl
        · rfl
      · rfl

/-- Witness for C3's amended fallback at a concrete parse failure. -/
theorem jsonpath_error_fallback_witness :
    applyJsonpathFilter (fun _ => none) [("semgrep", Json.str "s")] "$["
      = [("semgrep", Json.str "s")] :=
  jsonpath_error_fallback.1 (fun _ => none) [("semgrep", Json.str "s")]
    "$[" (Or.inl rfl)

/-! ## Ruleset cache (`sastlib/ruleset_downloader.py`)

`RulesetDownloader` keeps a per-process map scan id → temp directory and
a download either succeeds wholesale or raises.  Directories are named
by numeric ids (`fresh` stands for the `tempfile.mkdtemp` result);
`fsDirs` is the set of directories existing on disk. -/

/-- Python `str.split(sep)` over the character list. -/
def splitChars (sep : Char) : List Char → List (List Char)
  | [] => [[]]
  | c :: rest =>
    let r := splitChars sep rest
    if c = sep then [] :: r
    else
      match r with
      | g :: gs => (c :: g) :: gs
      | [] => [[c]]

/-- `RawRule.__init__`'s `rule_key.split(':')` two-element unpacking:
`none` models the `ValueError` raised on any other number of parts. -/
def parseRuleKey (key : String) : Option (String × String) :=
  match splitChars ':' key.data with
  | [sid, rf] => some (String.mk sid, String.mk rf)
  | _ => none

structure RulesetState where
  dirsMap : List (String × Nat)
  fsDirs : List Nat

def emptyRulesetState : RulesetState := { dirsMap := [], fsDirs := [] }

/-- `RulesetDownloader.get_rules`: the `Except` layer is the uncaught
`ValueError` from key parsing; `downloadOk` tells whether
`_download_rules` raises. -/
def getRules (st : RulesetState) (fresh : Nat) (downloadOk : Bool)
    (keys : List String) : Except Unit (Option Nat × RulesetState) :=
  match keys with
  | [] => .ok (none, st)
  | k :: _ =>
    match parseRuleKey k with
    | none => .error ()
    | some (scanId, _) =>
      match jGet st.dirsMap scanId with
      | some dir => .ok (some dir, st)
      | none =>
        -- mkdtemp creates the directory and the map entry is made
        -- before the download is attempted
        if downloadOk then
          .ok (some fresh,
            { dirsMap := jSet st.dirsMap scanId fresh,
              fsDirs := st.fsDirs ++ [fresh] })
        else
          -- shutil.rmtree removes the fresh directory again, but the
          -- dirsMap entry survives
          .ok (none,
            { dirsMap := jSet st.dirsMap scanId fresh,
              fsDirs := st.fsDirs })

/-- C4 counterexample: a failing materialization returns `none` and
leaves no directory on disk, yet the very next call for the same scan id
returns the removed directory's path (0) — not the empty result the
claim demands — while the filesystem still holds no directory at all. -/
theorem ruleset_failure_counterexample :
    getRules emptyRulesetState 0 false ["SCAN-1:rule.yml"]
      = .ok (none, { dirsMap := [("SCAN-1", 0)], fsDirs := [] })
    ∧ getRules { dirsMap := [("SCAN-1", 0)], fsDirs := [] } 1 true
        ["SCAN-1:rule.yml"]
      = .ok (some 0, { dirsMap := [("SCAN-1", 0)], fsDirs := [] })
    ∧ (0 : Nat) ∉ (({ dirsMap := [("SCAN-1", 0)], fsDirs := [] }
        : RulesetState)).fsDirs :=
  ⟨rfl, rfl, by decide⟩

/-- C4 (amended): the rules root is created once per scan id and reused
by later calls in the same worker process; a failing materialization
removes the partial directory and that call returns the empty result —
but the scan id stays in the cache map, so any subsequent call for the
same scan id returns the stale path of the removed directory instead of
the empty result. -/
theorem ruleset_cache_behavior :
    (∀ (st : RulesetState) (fresh : Nat) (ok : Bool) (k : String)
      (rest : List String) (sid rf : String) (dir : Nat),
      parseRuleKey k = some (sid, rf) → jGet st.dirsMap sid = some dir →
      getRules st fresh ok (k :: rest) = .ok (some dir, st))
    ∧ (∀ (st : RulesetState) (fresh : Nat) (k : String)
        (rest : List String) (sid rf : String),
        parseRuleKey k = some (sid, rf) → jGet st.dirsMap sid = none →
        getRules st fresh false (k :: rest)
          = .ok (none, { dirsMap := jSet st.dirsMap sid fresh,
                         fsDirs := st.fsDirs }))
    ∧ (∀ (st : RulesetState) (fresh fresh' : Nat) (ok : Bool) (k : String)
        (rest rest' : List String) (sid rf : String) (st' : RulesetState),
        parseRuleKey k = some (sid, rf) → jGet st.dirsMap sid = none →
        getRules st fresh false (k :: rest) = .ok (none, st') →
        getRules st' fresh' ok (k :: rest') = .ok (some fresh, st')) := by
  refine ⟨?_, ?_, ?_⟩
  · intro st fresh ok k rest sid rf dir hk hdir
    simp only [getRules, hk, hdir]
  · intro st fresh k rest sid rf hk hdir
    simp only [getRules, hk, hdir, Bool.false_eq_true, if_false]
  · intro st fresh fresh' ok k rest rest' sid rf st' hk hdir hcall
    simp only [getRules, hk, hdir, Bool.false_eq_true, if_false,
      Except.ok.injEq, Prod.mk.injEq] at hcall
    rcases hcall with ⟨-, hst'⟩
    subst hst'
    simp only [getRules, hk, jGet_jSet]

/-- Witness for C4's amended statement at concrete inputs. -/
theorem ruleset_cache_behavior_witness :
    getRules { dirsMap := [("SCAN-1", 0)], fsDirs := [] } 1 true
        ["SCAN-1:rule.yml"]
      = .ok (some 0, { dirsMap := [("SCAN-1", 0)], fsDirs := [] }) :=
  ruleset_cache_behavior.1
    { dirsMap := [("SCAN-1", 0)], fsDirs := [] } 1 true
    "SCAN-1:rule.yml" [] "SCAN-1" "rule.yml" 0 rfl rfl

/-! ## Plugin execution gate (`plugin_manager.py`) and the worker's
storage pipeline (`worker.py:process_task`)

`PluginManager.run_plugin` validates and standardizes every SARIF file a
plugin returns; `process_task` however invokes the scanner APIs directly
and hands their outputs to `store_scan_results` without going through
`run_plugin` at all. -/

/-- The `metadata_dict` built by
`PluginManager._validate_and_standardize_sarif_results`. -/
def metaDict (m : PluginMetadata) : PluginMeta :=
  { pluginId? := some m.plugin_id, name? := some m.name,
    version? := some m.version, author? := some m.author,
    homepage? := none }

/-- `_validate_and_standardize_sarif_results`: drop entries failing
validation; standardize the rest, keeping the original file when
standardization raises. -/
def validateAndStandardize (t : String) (md : PluginMeta) :
    List (String × Json) → List (String × Json)
  | [] => []
  | (r, d) :: rest =>
    if validateSarifData d then
      (match standardizeSarifOutput t md d with
       | .ok d' => (r, d')
       | .error _ => (r, d)) :: validateAndStandardize t md rest
    else validateAndStandardize t md rest

/-- `PluginManager.run_plugin`.  `reqsOk` stands for
`plugin.validate_requirements(**kwargs)` and `scanOut` for the mapping
returned by `plugin.run_scan` (file contents resolved; `none` = `None`).
Only a truthy (non-empty) result is passed through the SARIF gate. -/
def runPlugin (t : String) (reg : List (String × PluginInfo)) (pid : String)
    (reqsOk : Bool) (scanOut : Option (List (String × Json))) :
    Option (List (String × Json)) :=
  match jGet reg pid with
  | none => none
  | some p =>
    if ! reqsOk then none
    else
      match scanOut with
      | none => none
      | some rs =>
        if rs.isEmpty then some rs
        else some (validateAndStandardize t (metaDict p.metadata) rs)

/-- `runs[0].tool.driver.properties.gsast.pluginId` of a document. -/
def gsastPluginId0 (x : Json) : Option Json :=
  match x with
  | .obj kvs =>
    match jGet kvs "runs" with
    | some (.arr (run :: _)) =>
      match run with
      | .obj rkvs =>
        match jGet rkvs "tool" with
        | some (.obj tkvs) =>
          match jGet tkvs "driver" with
          | some (.obj dkvs) =>
            match jGet dkvs "properties" with
            | some (.obj pkvs) =>
              match jGet pkvs "gsast" with
              | some (.obj gkvs) => jGet gkvs "pluginId"
              | _ => none
            | _ => none
          | _ => none
        | _ => none
      | _ => none
    | _ => none
  | _ => none

/-- `worker.process_task`, restricted to its effect on the scans store:
the scanner APIs' outputs (`none` = scanner skipped or returned `None`)
are stored directly, without the SARIF gate.  An empty rules directory
with semgrep selected, or a failed download, aborts before any store. -/
def processTaskStores (st : ScansStore) (now : Nat)
    (scanId projectUrl : String) (scanners : List String)
    (rulesOk downloadOk : Bool)
    (semgrepOut trufflehogOut depConfOut :
      Option (List (String × Option Json))) : ScansStore :=
  if ! rulesOk && scanners.contains "semgrep" then st
  else if ! downloadOk then st
  else
    let st1 :=
      if scanners.contains "semgrep" then
        match semgrepOut with
        | some rs =>
          if rs.isEmpty then st
          else (storeScanResults st now scanId projectUrl "semgrep" rs).2
        | none => st
      else st
    let st2 :=
      if scanners.contains "trufflehog" then
        match trufflehogOut with
        | some rs =>
          if rs.isEmpty then st1
          else (storeScanResults st1 now scanId projectUrl "trufflehog" rs).2
        | none => st1
      else st1
    if scanners.contains "dependency-confusion" then
      match depConfOut with
      | some rs =>
        if rs.isEmpty then st2
        else
          (storeScanResults st2 now scanId projectUrl
            "dependency-confusion" rs).2
      | none => st2
    else st2

/-- The invalid SARIF document a scanner may emit (missing `$schema`,
`version` and `runs`). -/
def c1BadDoc : Json := .obj [("oops", .str "not sarif")]

/-- The store state after a worker job whose semgrep run emitted
`c1BadDoc`. -/
def c1Store : ScansStore :=
  processTaskStores emptyScansStore 9 "SCAN-1" "u" ["semgrep"] true true
    (some [("r", some c1BadDoc)]) none none

/-- C1 counterexample: the worker's pipeline stores a payload that fails
the SARIF gate's validation and carries no
`gsast.pluginId` stamp — `process_task` never invokes the gate. -/
theorem worker_stores_ungated_counterexample :
    pairPayload c1Store "SCAN-1" "u" "semgrep" = some c1BadDoc
    ∧ validateSarifData c1BadDoc = false
    ∧ gsastPluginId0 c1BadDoc = none :=
  ⟨rfl, rfl, rfl⟩

/-- Registration keys the registry by `metadata.plugin_id`, so a lookup
hit always returns a plugin whose id is the key. -/
theorem registry_key_is_plugin_id (pid : String) (p : PluginInfo)
    (h : jGet pluginRegistry pid = some p) : p.metadata.plugin_id = pid := by
  have hreg : pluginRegistry = [("semgrep", semgrepPlugin),
      ("trufflehog", trufflehogPlugin),
      ("dependency-confusion", dependencyConfusionPlugin)] := rfl
  rw [hreg] at h
  by_cases h1 : "semgrep" = pid
  · simp only [jGet, if_pos h1, Option.some.injEq] at h
    rw [← h, ← h1]; rfl
  by_cases h2 : "trufflehog" = pid
  · simp only [jGet, if_neg h1, if_pos h2, Option.some.injEq] at h
    rw [← h, ← h2]; rfl
  by_cases h3 : "dependency-confusion" = pid
  · simp only [jGet, if_neg h1, if_neg h2, if_pos h3,
      Option.some.injEq] at h
    rw [← h, ← h3]; rfl
  · simp only [jGet, if_neg h1, if_neg h2, if_neg h3] at h
    exact Option.noConfusion h

/-- Every entry surviving `_validate_and_standardize_sarif_results`
passed validation and is the (possibly unstandardized, when
standardization raised) version of an input entry. -/
theorem mem_validateAndStandardize (t : String) (md : PluginMeta)
    (rs : List (String × Json)) (r : String) (d' : Json)
    (h : (r, d') ∈ validateAndStandardize t md rs) :
    ∃ d, (r, d) ∈ rs ∧ validateSarifData d = true ∧
      (standardizeSarifOutput t md d = .ok d'
       ∨ (∃ e, standardizeSarifOutput t md d = .error e ∧ d' = d)) := by
  induction rs with
  | nil => simp [validateAndStandardize] at h
  | cons hd rest ih =>
    obtain ⟨r₀, d₀⟩ := hd
    by_cases hv : validateSarifData d₀ = true
    · rw [validateAndStandardize, if_pos hv] at h
      rcases hsd : standardizeSarifOutput t md d₀ with e | d₁ <;>
        simp only [hsd] at h
      · rcases List.mem_cons.mp h with hh | hh
        · obtain ⟨hr, hd⟩ := Prod.mk.injEq .. ▸ hh
          subst hr
          exact ⟨d₀, List.mem_cons_self _ _, hv, Or.inr ⟨e, hsd, hd⟩⟩
        · obtain ⟨d, hmem, hrest⟩ := ih hh
          exact ⟨d, List.mem_cons_of_mem _ hmem, hrest⟩
      · rcases List.mem_cons.mp h with hh | hh
        · obtain ⟨hr, hd⟩ := Prod.mk.injEq .. ▸ hh
          subst hr
          subst hd
          exact ⟨d₀, List.mem_cons_self _ _, hv, Or.inl hsd⟩
        · obtain ⟨d, hmem, hrest⟩ := ih hh
          exact ⟨d, List.mem_cons_of_mem _ hmem, hrest⟩
    · rw [validateAndStandardize, if_neg hv] at h
      obtain ⟨d, hmem, hrest⟩ := ih h
      exact ⟨d, List.mem_cons_of_mem _ hmem, hrest⟩

/-- A validated document that standardization accepts carries the
metadata's plugin id at `runs[0].tool.driver.properties.gsast.pluginId`. -/
theorem standardize_stamps_pluginId (t : String) (md : PluginMeta)
    (d d' : Json) (hv : validateSarifData d = true)
    (hs : standardizeSarifOutput t md d = .ok d') :
    gsastPluginId0 d' = some (.str (md.pluginId?.getD "unknown")) := by
  rcases d with _ | b | n | s | xs | kvs
  · simp [validateSarifData] at hv
  · simp [validateSarifData] at hv
  · simp [validateSarifData] at hv
  · simp [validateSarifData] at hv
  · simp [validateSarifData] at hv
  rcases hr : jGet kvs "runs" with _ | rv <;>
    rw [validateSarifData] at hv <;> rw [hr] at hv
  · simp at hv
  rcases rv with _ | _ | _ | sv | runs | pkv
  · simp at hv
  · simp at hv
  · simp at hv
  · simp at hv
  case arr =>
    rcases runs with _ | ⟨run0, rest⟩
    · simp at hv
    simp only [Bool.and_eq_true, List.all_cons] at hv
    have hvr0 : validRun run0 = true := hv.2.2.1
    -- unpack the standardization of the run list
    simp only [standardizeSarifOutput, hr] at hs
    rcases hsr : stdRuns t md (run0 :: rest) with e | runs' <;>
      simp only [hsr] at hs
    · exact Except.noConfusion hs
    injection hs with hs
    subst hs
    rw [stdRuns] at hsr
    rcases hr0 : stdRun t md run0 with e | run0' <;> simp only [hr0] at hsr
    · exact Except.noConfusion hsr
    rcases hrs : stdRuns t md rest with e | rest' <;> simp only [hrs] at hsr
    · exact Except.noConfusion hsr
    injection hsr with hsr
    subst hsr
    -- shape of run0 from validation
    rcases run0 with _ | _ | _ | _ | _ | rkvs
    · simp [validRun] at hvr0
    · simp [validRun] at hvr0
    · simp [validRun] at hvr0
    · simp [validRun] at hvr0
    · simp [validRun] at hvr0
    rcases htool : jGet rkvs "tool" with _ | tool <;>
      simp only [validRun, htool, Bool.and_eq_true] at hvr0
    · exact absurd hvr0.1 (by simp)
    have hvt : validTool tool = true := hvr0.1
    rcases tool with _ | _ | _ | _ | _ | tkvs
    · simp [validTool] at hvt
    · simp [validTool] at hvt
    · simp [validTool] at hvt
    · simp [validTool] at hvt
    · simp [validTool] at hvt
    rcases hdrv : jGet tkvs "driver" with _ | drv <;>
      simp only [validTool, hdrv] at hvt
    · exact absurd hvt (by simp)
    rcases drv with _ | _ | _ | _ | _ | dkvs
    · simp at hvt
    · simp at hvt
    · simp at hvt
    · simp at hvt
    · simp at hvt
    -- the standardized run: stdDriver must have succeeded
    simp only [stdRun, htool, hdrv] at hr0
    rcases hsd : stdDriver t md dkvs with e | dkvs0 <;>
      simp only [hsd] at hr0
    · exact Except.noConfusion hr0
    injection hr0 with hr0
    subst hr0
    -- stdDriver's result sets `properties` to an object whose `gsast`
    -- entry is the stamp
    have hstamp : ∃ P, jGet dkvs0 "properties" = some (.obj P)
        ∧ jGet P "gsast" = some (gsastStamp t md) := by
      rw [stdDriver] at hsd
      rcases hp : jGet (stdDriverPre md dkvs) "properties" with _ | pv
      · simp only [hp] at hsd
        injection hsd with hsd
        subst hsd
        exact ⟨_, jGet_jSet _ _ _, by simp [jGet]⟩
      · rcases pv with _ | _ | _ | _ | _ | pkvs₀ <;> simp only [hp] at hsd
        · exact Except.noConfusion hsd
        · exact Except.noConfusion hsd
        · exact Except.noConfusion hsd
        · exact Except.noConfusion hsd
        · exact Except.noConfusion hsd
        injection hsd with hsd
        subst hsd
        exact ⟨_, jGet_jSet _ _ _, jGet_jSet _ _ _⟩
    obtain ⟨P, hP1, hP2⟩ := hstamp
    simp only [gsastPluginId0, jGet_jSet, hP1, hP2]
    simp [gsastStamp, jGet]
  · simp at hv

/-- C1 (amended): a payload reaches a project's results map ungated —
`process_task` stores raw scanner output (see the counterexample) — but
every mapping returned by `PluginManager.run_plugin` consists of entries
that passed the SARIF gate's validation, and whenever standardization
succeeded for an entry, its `runs[0].tool.driver.properties.gsast.pluginId`
equals the plugin id used as the registry key (entries whose
standardization raised are kept in their original, unstamped form). -/
theorem run_plugin_gates_and_stamps (t : String) (pid : String)
    (p : PluginInfo) (reqsOk : Bool) (rsIn out : List (String × Json))
    (hp : jGet pluginRegistry pid = some p)
    (hrun : runPlugin t pluginRegistry pid reqsOk (some rsIn) = some out)
    (r : String) (d' : Json) (hmem : (r, d') ∈ out) :
    ∃ d, (r, d) ∈ rsIn ∧ validateSarifData d = true ∧
      ((standardizeSarifOutput t (metaDict p.metadata) d = .ok d'
          ∧ gsastPluginId0 d' = some (.str pid))
       ∨ (∃ e, standardizeSarifOutput t (metaDict p.metadata) d = .error e
            ∧ d' = d)) := by
  have hpid : p.metadata.plugin_id = pid := registry_key_is_plugin_id pid p hp
  simp only [runPlugin, hp] at hrun
  rcases reqsOk with _ | _
  · simp at hrun
  simp only [Bool.not_true, Bool.false_eq_true, if_false] at hrun
  by_cases hempty : rsIn.isEmpty = true
  · rw [if_pos hempty] at hrun
    simp only [Option.some.injEq] at hrun
    subst hrun
    rw [List.isEmpty_iff] at hempty
    subst hempty
    exact absurd hmem (List.not_mem_nil _)
  · rw [if_neg hempty] at hrun
    simp only [Option.some.injEq] at hrun
    subst hrun
    obtain ⟨d, hdmem, hdv, hcase⟩ :=
      mem_validateAndStandardize t (metaDict p.metadata) rsIn r d' hmem
    refine ⟨d, hdmem, hdv, ?_⟩
    rcases hcase with hok | herr
    · refine Or.inl ⟨hok, ?_⟩
      have := standardize_stamps_pluginId t (metaDict p.metadata) d d' hdv hok
      rw [this]
      simp [metaDict, hpid]
    · exact Or.inr herr

/-- Witness for C1's amended gate property at a concrete plugin run. -/
theorem run_plugin_gates_and_stamps_witness :
    ∃ d, ("r", d) ∈ [("r", sarifInW)] ∧ validateSarifData d = true ∧
      ((standardizeSarifOutput "TS" (metaDict semgrepPlugin.metadata) d
          = .ok sarifOutW
          ∧ gsastPluginId0 sarifOutW = some (.str "semgrep"))
       ∨ (∃ e, standardizeSarifOutput "TS" (metaDict semgrepPlugin.metadata) d
            = .error e ∧ sarifOutW = d)) :=
  run_plugin_gates_and_stamps "TS" "semgrep" semgrepPlugin true
    [("r", sarifInW)] [("r", sarifOutW)] rfl rfl "r" sarifOutW
    (List.mem_singleton.mpr rfl)

/-! ## Configuration models (`models/config_models.py`)

`GSASTConfig.from_dict` and `to_dict` over the JSON request payload.
Python exceptions are distinguished by kind since the HTTP handler
catches only `ValueError`/`KeyError`; `re.compile` success is the
`regexOk` oracle. -/

inductive PyErr where
  | valueError (msg : String)
  | keyError (msg : String)
  | typeError (msg : String)
  | attributeError (msg : String)

/-- Python truthiness of a JSON value. -/
def jTruthy : Json → Bool
  | .null => false
  | .bool b => b
  | .num n => n != 0
  | .str s => s != ""
  | .arr xs => ! xs.isEmpty
  | .obj kvs => ! kvs.isEmpty

/-- `d.get(k)` where a JSON `null` value is Python `None`, i.e.
indistinguishable from an absent key for `is None` checks. -/
def jOptGet (kvs : JObj) (k : String) : Option Json :=
  match jGet kvs k with
  | some .null => none
  | x => x

/-- Python `len`, `none` when `len()` raises `TypeError`. -/
def pyLen : Json → Option Nat
  | .str s => some s.length
  | .arr xs => some xs.length
  | .obj kvs => some kvs.length
  | _ => none

/-- Python iteration over a value: arrays yield elements, strings yield
one-character strings, dicts yield their keys; other types raise. -/
def pyIter : Json → Except PyErr (List Json)
  | .arr xs => .ok xs
  | .str s => .ok (s.data.map fun c => .str (String.mk [c]))
  | .obj kvs => .ok (kvs.map fun kv => Json.str kv.1)
  | _ => .error (.typeError "object is not iterable")

structure TargetConfig where
  provider : String
  repositories : Option Json
  organizations : Option Json
  groups : Option Json

structure FiltersConfig where
  is_archived : Option Json
  is_fork : Option Json
  is_personal_project : Option Json
  max_repo_mb_size : Option Json
  last_commit_max_age : Option Json
  ignore_path_regexes : Option Json
  must_path_regexes : Option Json

structure GSASTConfig where
  base_url : String
  target : TargetConfig
  api_secret_key : Option Json
  filters : Option FiltersConfig
  scanners : Option (List String)

/-- `TargetConfig.__post_init__`'s list cleaning: an empty collection
becomes `None`; `len` of a non-collection raises. -/
def cleanListField : Option Json → Except PyErr (Option Json)
  | none => .ok none
  | some v =>
    match pyLen v with
    | none => .error (.typeError "object of this type has no len")
    | some 0 => .ok none
    | some _ => .ok (some v)

/-- `GitHubTargetConfig.__init__` + validation. -/
def mkGitHubTarget (td : JObj) : Except PyErr TargetConfig :=
  match cleanListField (jOptGet td "repositories") with
  | .error e => .error e
  | .ok repos =>
    match cleanListField (jOptGet td "organizations") with
    | .error e => .error e
    | .ok orgs =>
      if orgs.isNone && repos.isNone then
        .error (.valueError
          "GitHub target must specify at least one organization or repository")
      else
        .ok { provider := "github", repositories := repos,
              organizations := orgs, groups := none }

/-- `GitLabTargetConfig.__init__` + validation (organizations is always
`None` here, so its check never fires). -/
def mkGitLabTarget (td : JObj) : Except PyErr TargetConfig :=
  match cleanListField (jOptGet td "repositories") with
  | .error e => .error e
  | .ok repos =>
    match cleanListField (jOptGet td "groups") with
    | .error e => .error e
    | .ok groups =>
      .ok { provider := "gitlab", repositories := repos,
            organizations := none, groups := groups }

/-- The target part of `from_dict`. -/
def readTarget (kvs : JObj) : Except PyErr TargetConfig :=
  match jGet kvs "target" with
  | none => .error (.valueError "'target' configuration is mandatory")
  | some tdj =>
    if ! jTruthy tdj then
      .error (.valueError "'target' configuration is mandatory")
    else
      match tdj with
      | .obj td =>
        match jGet td "provider" with
        | none => .error (.keyError "provider")
        | some (.str "github") => mkGitHubTarget td
        | some (.str "gitlab") => mkGitLabTarget td
        | some _ => .error (.valueError "invalid ProviderType")
      | _ => .error (.typeError "indices must be strings")

/-- The non-negativity check of the two size/age filters (`bool` is an
`int` in Python and is never negative). -/
def checkNonNeg (v : Option Json) (msg : String) : Except PyErr Unit :=
  match v with
  | none => .ok ()
  | some (.num n) =>
    if n < 0 then .error (.valueError msg) else .ok ()
  | some (.bool _) => .ok ()
  | some _ => .error (.typeError "not comparable with int")

/-- `re.compile` over each pattern of an iterated value. -/
def compilePats (regexOk : String → Bool) (msg : String) :
    List Json → Except PyErr Unit
  | [] => .ok ()
  | .str s :: rest =>
    if regexOk s then compilePats regexOk msg rest
    else .error (.valueError msg)
  | _ :: _ => .error (.typeError "first argument must be string or pattern")

def checkRegexes (regexOk : String → Bool) (v : Option Json)
    (msg : String) : Except PyErr Unit :=
  match v with
  | none => .ok ()
  | some w =>
    if ! jTruthy w then .ok ()
    else
      match pyIter w with
      | .error e => .error e
      | .ok pats => compilePats regexOk msg pats

/-- `FiltersConfig` construction + `__post_init__` validation. -/
def mkFilters (regexOk : String → Bool) (fkvs : JObj) :
    Except PyErr FiltersConfig :=
  let f : FiltersConfig :=
    { is_archived := jOptGet fkvs "is_archived",
      is_fork := jOptGet fkvs "is_fork",
      is_personal_project := jOptGet fkvs "is_personal_project",
      max_repo_mb_size := jOptGet fkvs "max_repo_mb_size",
      last_commit_max_age := jOptGet fkvs "last_commit_max_age",
      ignore_path_regexes := jOptGet fkvs "ignore_path_regexes",
      must_path_regexes := jOptGet fkvs "must_path_regexes" }
  match checkNonNeg f.max_repo_mb_size
      "max_repo_mb_size must be non-negative" with
  | .error e => .error e
  | .ok _ =>
    match checkNonNeg f.last_commit_max_age
        "last_commit_max_age must be non-negative" with
    | .error e => .error e
    | .ok _ =>
      match checkRegexes regexOk f.ignore_path_regexes
          "Invalid regex pattern in ignore_path_regexes" with
      | .error e => .error e
      | .ok _ =>
        match checkRegexes regexOk f.must_path_regexes
            "Invalid regex pattern in must_path_regexes" with
        | .error e => .error e
        | .ok _ => .ok f

/-- The filters part of `from_dict` (`if 'filters' in data:` is a key
test, so a present `null` value reaches `.get` and raises). -/
def readFilters (regexOk : String → Bool) (kvs : JObj) :
    Except PyErr (Option FiltersConfig) :=
  match jGet kvs "filters" with
  | none => .ok none
  | some (.obj fkvs) =>
    match mkFilters regexOk fkvs with
    | .error e => .error e
    | .ok f => .ok (some f)
  | some _ => .error (.attributeError "has no attribute get")

/-- `ScannerType(s)`. -/
def parseScanner : Json → Except PyErr String
  | .str s =>
    if s = "semgrep" ∨ s = "trufflehog" ∨ s = "dependency-confusion"
    then .ok s
    else .error (.valueError "is not a valid ScannerType")
  | _ => .error (.valueError "is not a valid ScannerType")

/-- The `[ScannerType(scanner) for scanner in data['scanners']]`
comprehension. -/
def parseScanners : List Json → Except PyErr (List String)
  | [] => .ok []
  | x :: xs =>
    match parseScanner x with
    | .error e => .error e
    | .ok s =>
      match parseScanners xs with
      | .error e => .error e
      | .ok ss => .ok (s :: ss)

/-- The scanners part of `from_dict`
(`if 'scanners' in data and data['scanners']:`). -/
def readScanners (kvs : JObj) : Except PyErr (Option (List String)) :=
  match jGet kvs "scanners" with
  | none => .ok none
  | some v =>
    if ! jTruthy v then .ok none
    else
      match pyIter v with
      | .error e => .error e
      | .ok xs =>
        match parseScanners xs with
        | .error e => .error e
        | .ok ss => .ok (some ss)

/-- `GSASTConfig.__post_init__`'s base_url validation. -/
def checkBaseUrl (bu : Json) : Except PyErr String :=
  if ! jTruthy bu then
    .error (.valueError "base_url is mandatory and cannot be empty")
  else
    match bu with
    | .str s =>
      if ! strNonBlank s then
        .error (.valueError "base_url is mandatory and cannot be empty")
      else if ! (leadMatch "http://".data s.data
          || leadMatch "https://".data s.data) then
        .error (.valueError "base_url must start with http:// or https://")
      else .ok s
    | _ => .error (.attributeError "has no attribute strip")

/-- `GSASTConfig.from_dict` (+ `__post_init__`). -/
def fromDict (regexOk : String → Bool) (d : Json) :
    Except PyErr GSASTConfig :=
  match d with
  | .obj kvs =>
    match readTarget kvs with
    | .error e => .error e
    | .ok target =>
      match readFilters regexOk kvs with
      | .error e => .error e
      | .ok filters =>
        match readScanners kvs with
        | .error e => .error e
        | .ok scanners =>
          match jGet kvs "base_url" with
          | none => .error (.keyError "base_url")
          | some bu =>
            match checkBaseUrl bu with
            | .error e => .error e
            | .ok s =>
              .ok { base_url := s, target := target,
                    api_secret_key := jOptGet kvs "api_secret_key",
                    filters := filters,
                    scanners := match scanners with
                      | some [] => none
                      | x => x }
  | _ => .error (.attributeError "has no attribute get")

/-- `TargetConfig.to_dict`. -/
def targetToDict (tc : TargetConfig) : JObj :=
  [("provider", .str tc.provider)]
  ++ (match tc.repositories with
      | some v => if jTruthy v then [("repositories", v)] else []
      | none => [])
  ++ (match tc.organizations with
      | some v => if jTruthy v then [("organizations", v)] else []
      | none => [])
  ++ (match tc.groups with
      | some v => if jTruthy v then [("groups", v)] else []
      | none => [])

/-- `FiltersConfig.to_dict`. -/
def filtersToDict (f : FiltersConfig) : JObj :=
  (match f.is_archived with
   | some v => [("is_archived", v)] | none => [])
  ++ (match f.is_fork with
      | some v => [("is_fork", v)] | none => [])
  ++ (match f.is_personal_project with
      | some v => [("is_personal_project", v)] | none => [])
  ++ (match f.max_repo_mb_size with
      | some v => [("max_repo_mb_size", v)] | none => [])
  ++ (match f.last_commit_max_age with
      | some v => [("last_commit_max_age", v)] | none => [])
  ++ (match f.ignore_path_regexes with
      | some v => [("ignore_path_regexes", v)] | none => [])
  ++ (match f.must_path_regexes with
      | some v => [("must_path_regexes", v)] | none => [])

/-- The optional `api_secret_key` entry of `to_dict`
(`is not None` test). -/
def apiSeg (v : Option Json) : JObj :=
  match v with
  | some v => [("api_secret_key", v)]
  | none => []

/-- The optional `filters` entry of `to_dict` (a present config whose
dict is empty is dropped). -/
def filtSeg (fopt : Option FiltersConfig) : JObj :=
  match fopt with
  | some f =>
    if (filtersToDict f).isEmpty then []
    else [("filters", .obj (filtersToDict f))]
  | none => []

/-- The optional `scanners` entry of `to_dict` (truthiness test). -/
def scanSeg (sc : Option (List String)) : JObj :=
  match sc with
  | some ss =>
    if ss.isEmpty then []
    else [("scanners", .arr (ss.map Json.str))]
  | none => []

/-- `GSASTConfig.to_dict`. -/
def toDict (c : GSASTConfig) : JObj :=
  [("base_url", .str c.base_url), ("target", .obj (targetToDict c.target))]
  ++ apiSeg c.api_secret_key ++ filtSeg c.filters ++ scanSeg c.scanners

/-! ### C9: configuration round trip -/

/-- A configuration dictionary accepted by `from_dict` with an empty but
present `scanners` field. -/
def c9Dict : JObj :=
  [("base_url", .str "http://h"),
   ("target", .obj [("provider", .str "github"),
                    ("organizations", .arr [.str "acme"])]),
   ("scanners", .arr [])]

def c9Config : GSASTConfig :=
  { base_url := "http://h",
    target := { provider := "github", repositories := none,
                organizations := some (.arr [.str "acme"]), groups := none },
    api_secret_key := none, filters := none, scanners := none }

/-- C9 counterexample: `scanners` is present in the input (with an empty
list) and `from_dict` accepts the dictionary, but
`to_dict(from_dict(d))` has no `scanners` field — a present field is not
preserved. -/
theorem config_roundtrip_counterexample :
    fromDict (fun _ => true) (.obj c9Dict) = .ok c9Config
    ∧ jHasKey c9Dict "scanners" = true
    ∧ jHasKey (toDict c9Config) "scanners" = false :=
  ⟨rfl, rfl, rfl⟩

theorem jGet_append {β : Type} (l1 l2 : List (String × β)) (k : String) :
    jGet (l1 ++ l2) k
      = match jGet l1 k with
        | some v => some v
        | none => jGet l2 k := by
  induction l1 with
  | nil => simp [jGet]
  | cons hd tl ih =>
    obtain ⟨k₀, v₀⟩ := hd
    by_cases h : k₀ = k <;> simp [jGet, h, ih]

theorem parseScanners_map (xs : List Json) (ss : List String)
    (h : parseScanners xs = .ok ss) :
    ss.map Json.str = xs ∧ ss.length = xs.length := by
  induction xs generalizing ss with
  | nil =>
    simp only [parseScanners] at h
    injection h with h
    subst h
    exact ⟨rfl, rfl⟩
  | cons x xs ih =>
    rw [parseScanners] at h
    rcases hx : parseScanner x with e | s <;> rw [hx] at h
    · exact Except.noConfusion h
    rcases hxs : parseScanners xs with e | ss' <;> rw [hxs] at h
    · exact Except.noConfusion h
    injection h with h
    subst h
    obtain ⟨h1, h2⟩ := ih ss' hxs
    have hxstr : x = .str s := by
      rcases x with _ | _ | _ | s₀ | _ | _ <;>
        simp only [parseScanner] at hx
      · exact Except.noConfusion hx
      · exact Except.noConfusion hx
      · exact Except.noConfusion hx
      · split at hx
        · injection hx with hx; rw [hx]
        · exact Except.noConfusion hx
      · exact Except.noConfusion hx
      · exact Except.noConfusion hx
    subst hxstr
    simp [h1, h2]

theorem pyIter_nonempty (v : Json) (xs : List Json)
    (ht : jTruthy v = true) (h : pyIter v = .ok xs) : xs ≠ [] := by
  rcases v with _ | b | n | s | ys | kvs
  · simp [jTruthy] at ht
  · simp only [pyIter] at h; exact Except.noConfusion h
  · simp only [pyIter] at h; exact Except.noConfusion h
  · simp only [pyIter] at h
    injection h with h
    subst h
    simp only [jTruthy, bne_iff_ne, ne_eq] at ht
    intro hc
    simp only [List.map_eq_nil_iff] at hc
    exact ht (by rcases s with ⟨data⟩; simp at hc; simp [hc])
  · simp only [pyIter] at h
    injection h with h
    subst h
    simp only [jTruthy, Bool.not_eq_true'] at ht
    intro hc
    rw [hc] at ht
    simp at ht
  · simp only [pyIter] at h
    injection h with h
    subst h
    simp only [jTruthy, Bool.not_eq_true'] at ht
    intro hc
    simp only [List.map_eq_nil_iff] at hc
    rw [hc] at ht
    simp at ht

/-- If `scanners` is present and truthy, a successful `readScanners`
yields a non-empty parsed list. -/
theorem readScanners_truthy (kvs : JObj) (v : Json)
    (hv : jGet kvs "scanners" = some v) (ht : jTruthy v = true)
    (sc : Option (List String)) (h : readScanners kvs = .ok sc) :
    ∃ ss, sc = some ss ∧ ss ≠ [] := by
  simp only [readScanners, hv, ht, Bool.not_true, Bool.false_eq_true,
    if_false] at h
  rcases hit : pyIter v with e | xs <;> simp only [hit] at h
  · exact Except.noConfusion h
  rcases hps : parseScanners xs with e | ss <;> simp only [hps] at h
  · exact Except.noConfusion h
  injection h with h
  subst h
  refine ⟨ss, rfl, ?_⟩
  have hne := pyIter_nonempty v xs ht hit
  obtain ⟨-, hlen⟩ := parseScanners_map xs ss hps
  intro hc
  subst hc
  simp only [List.length_nil] at hlen
  exact hne (List.eq_nil_of_length_eq_zero hlen.symm)

/-- If `scanners` is absent or falsy, `readScanners` yields `none`. -/
theorem readScanners_falsy (kvs : JObj)
    (h : jGet kvs "scanners" = none
      ∨ ∃ v, jGet kvs "scanners" = some v ∧ jTruthy v = false) :
    readScanners kvs = .ok none := by
  rcases h with h | ⟨v, hv, ht⟩
  · rw [readScanners, h]
  · simp [readScanners, hv, ht]

/-- `checkBaseUrl` succeeds only on the string it returns. -/
theorem checkBaseUrl_ok (bu : Json) (s : String)
    (h : checkBaseUrl bu = .ok s) : bu = .str s := by
  rcases bu with _ | b | n | s₀ | ys | kvs
  · simp [checkBaseUrl, jTruthy] at h
  · cases b <;> simp [checkBaseUrl, jTruthy] at h
  · cases hb : (n != 0) <;> simp [checkBaseUrl, jTruthy, hb] at h
  · cases h1 : (s₀ != "") <;> simp only [checkBaseUrl, jTruthy, h1] at h
    · simp at h
    · cases h2 : strNonBlank s₀ <;> simp only [h2] at h
      · simp at h
      · cases h3 : (leadMatch "http://".data s₀.data
            || leadMatch "https://".data s₀.data) <;> simp only [h3] at h
        · simp at h
        · simp only [Bool.not_true, Bool.false_eq_true, if_false,
            Except.ok.injEq] at h
          rw [h]
  · cases hb : ys.isEmpty <;> simp [checkBaseUrl, jTruthy, hb] at h
  · cases hb : kvs.isEmpty <;> simp [checkBaseUrl, jTruthy, hb] at h

theorem jGet_apiSeg_self (v : Option Json) :
    jGet (apiSeg v) "api_secret_key" = v := by
  cases v <;> simp [apiSeg, jGet]

theorem jGet_apiSeg_ne (v : Option Json) (k : String)
    (hk : k ≠ "api_secret_key") : jGet (apiSeg v) k = none := by
  cases v <;> simp [apiSeg, jGet, Ne.symm hk]

theorem jGet_filtSeg_ne (fopt : Option FiltersConfig) (k : String)
    (hk : k ≠ "filters") : jGet (filtSeg fopt) k = none := by
  rcases fopt with _ | f
  · rfl
  · rw [filtSeg]
    split <;> simp [jGet, Ne.symm hk]

theorem jGet_scanSeg_ne (sc : Option (List String)) (k : String)
    (hk : k ≠ "scanners") : jGet (scanSeg sc) k = none := by
  rcases sc with _ | ss
  · rfl
  · rw [scanSeg]
    split <;> simp [jGet, Ne.symm hk]

theorem scanSeg_isSome (sc : Option (List String)) :
    ((jGet (scanSeg sc) "scanners").isSome = true
      ↔ ∃ ss, sc = some ss ∧ ss ≠ []) := by
  rcases sc with _ | ss
  · simp [scanSeg, jGet]
  · rcases hss : ss.isEmpty with _ | _
    · rw [scanSeg, if_neg (by rw [hss]; exact Bool.false_ne_true)]
      simp only [jGet, if_pos rfl, Option.isSome_some]
      constructor
      · intro _
        exact ⟨ss, rfl, fun hc => by rw [hc] at hss; simp at hss⟩
      · intro _; rfl
    · rw [List.isEmpty_iff] at hss
      subst hss
      simp [scanSeg, jGet]

theorem jGet_scanSeg_some (ss : List String) (hss : ss ≠ []) :
    jGet (scanSeg (some ss)) "scanners" = some (.arr (ss.map Json.str)) := by
  rw [scanSeg, if_neg (by simpa using hss)]
  simp [jGet]

theorem key_apiSeg (v : Option Json) (k : String)
    (h : (jGet (apiSeg v) k).isSome = true) : k = "api_secret_key" := by
  by_cases hk : k = "api_secret_key"
  · exact hk
  · rw [jGet_apiSeg_ne v k hk] at h
    exact absurd h (by simp)

theorem key_filtSeg (fopt : Option FiltersConfig) (k : String)
    (h : (jGet (filtSeg fopt) k).isSome = true) : k = "filters" := by
  by_cases hk : k = "filters"
  · exact hk
  · rw [jGet_filtSeg_ne fopt k hk] at h
    exact absurd h (by simp)

theorem key_scanSeg (sc : Option (List String)) (k : String)
    (h : (jGet (scanSeg sc) k).isSome = true) : k = "scanners" := by
  by_cases hk : k = "scanners"
  · exact hk
  · rw [jGet_scanSeg_ne sc k hk] at h
    exact absurd h (by simp)

theorem jGet_toDict (c : GSASTConfig) (k : String) :
    jGet (toDict c) k =
      if "base_url" = k then some (.str c.base_url)
      else if "target" = k then some (.obj (targetToDict c.target))
      else
        match jGet (apiSeg c.api_secret_key) k with
        | some v => some v
        | none =>
          match jGet (filtSeg c.filters) k with
          | some v => some v
          | none => jGet (scanSeg c.scanners) k := by
  rw [toDict, jGet_append, jGet_append, jGet_append]
  by_cases h1 : "base_url" = k
  · simp [jGet, h1]
  by_cases h2 : "target" = k
  · simp [jGet, h1, h2]
  · simp only [jGet, if_neg h1, if_neg h2]
    rcases jGet (apiSeg c.api_secret_key) k with _ | v
    · rcases jGet (filtSeg c.filters) k with _ | w <;> simp
    · simp

/-- C9 (amended): for every accepted configuration dictionary,
`to_dict ∘ from_dict` preserves `base_url` exactly, always emits
`target`, preserves `api_secret_key` exactly when present with a
non-null value, emits `scanners` exactly when the field was present with
a truthy value (returning the very same list when it was a non-empty
array), emits no `filters` key when `filters` was absent, and emits no
keys beyond the five recognized ones — so fields absent from the input
stay absent, while present fields with empty or null values are dropped
rather than preserved. -/
theorem config_roundtrip_fields (regexOk : String → Bool) (kvs : JObj)
    (c : GSASTConfig) (h : fromDict regexOk (.obj kvs) = .ok c) :
    jGet (toDict c) "base_url" = jGet kvs "base_url"
    ∧ jHasKey (toDict c) "target" = true
    ∧ jGet (toDict c) "api_secret_key" = jOptGet kvs "api_secret_key"
    ∧ (jHasKey (toDict c) "scanners" = true ↔
        ∃ v, jGet kvs "scanners" = some v ∧ jTruthy v = true)
    ∧ (∀ xs, xs ≠ [] → jGet kvs "scanners" = some (.arr xs) →
        jGet (toDict c) "scanners" = some (.arr xs))
    ∧ (jGet kvs "filters" = none → jHasKey (toDict c) "filters" = false)
    ∧ (∀ k, jHasKey (toDict c) k = true →
        k = "base_url" ∨ k = "target" ∨ k = "api_secret_key"
          ∨ k = "filters" ∨ k = "scanners") := by
  simp only [fromDict] at h
  rcases hT : readTarget kvs with e | tgt <;> simp only [hT] at h
  · exact Except.noConfusion h
  rcases hF : readFilters regexOk kvs with e | fopt <;> simp only [hF] at h
  · exact Except.noConfusion h
  rcases hS : readScanners kvs with e | scs <;> simp only [hS] at h
  · exact Except.noConfusion h
  rcases hB : jGet kvs "base_url" with _ | bu <;> simp only [hB] at h
  · exact Except.noConfusion h
  rcases hCB : checkBaseUrl bu with e | s <;> simp only [hCB] at h
  · exact Except.noConfusion h
  injection h with h
  subst h
  have hbu : bu = .str s := checkBaseUrl_ok bu s hCB
  subst hbu
  refine ⟨?_, ?_, ?_, ?_, ?_, ?_, ?_⟩
  · rw [jGet_toDict]
    simp
  · rw [jHasKey, jGet_toDict]
    simp
  · rw [jGet_toDict, if_neg (by decide), if_neg (by decide)]
    dsimp only
    rw [jGet_apiSeg_self]
    rcases hA : jOptGet kvs "api_secret_key" with _ | av
    · simp [jGet_filtSeg_ne _ _ (by decide : ("api_secret_key" : String) ≠ "filters"),
        jGet_scanSeg_ne _ _ (by decide : ("api_secret_key" : String) ≠ "scanners")]
    · simp
  · rw [jHasKey, jGet_toDict, if_neg (by decide), if_neg (by decide),
      jGet_apiSeg_ne _ _ (by decide), jGet_filtSeg_ne _ _ (by decide)]
    dsimp only
    rw [scanSeg_isSome]
    constructor
    · rintro ⟨ss, hss, hne⟩
      rcases scs with _ | ⟨_ | ⟨a, l⟩⟩
      · exact Option.noConfusion hss
      · exact Option.noConfusion hss
      · simp only [Option.some.injEq] at hss
        subst hss
        rcases hv : jGet kvs "scanners" with _ | v
        · rw [readScanners, hv] at hS
          injection hS with hS
          exact Option.noConfusion hS.symm
        · refine ⟨v, rfl, ?_⟩
          by_cases ht : jTruthy v = true
          · exact ht
          · rw [readScanners_falsy kvs
              (Or.inr ⟨v, hv, Bool.not_eq_true _ ▸ ht⟩)] at hS
            injection hS with hS
            exact absurd hS.symm Option.noConfusion
    · rintro ⟨v, hv, ht⟩
      obtain ⟨ss, hss, hne⟩ := readScanners_truthy kvs v hv ht scs hS
      subst hss
      rcases ss with _ | ⟨a, l⟩
      · exact absurd rfl hne
      · exact ⟨a :: l, rfl, hne⟩
  · intro xs hxs hget
    have ht : jTruthy (.arr xs) = true := by
      simp only [jTruthy, Bool.not_eq_true']
      rw [List.isEmpty_eq_false]
      exact hxs
    obtain ⟨ss, hss, hne⟩ := readScanners_truthy kvs (.arr xs) hget ht scs hS
    subst hss
    rw [readScanners, hget] at hS
    dsimp only at hS
    rw [if_neg (by simp [ht])] at hS
    simp only [pyIter] at hS
    rcases hps : parseScanners xs with e | ss₁ <;> simp only [hps] at hS
    · exact Except.noConfusion hS
    injection hS with hS
    injection hS with hS
    subst hS
    obtain ⟨hmap, -⟩ := parseScanners_map xs ss₁ hps
    rw [jGet_toDict, if_neg (by decide), if_neg (by decide),
      jGet_apiSeg_ne _ _ (by decide), jGet_filtSeg_ne _ _ (by decide)]
    dsimp only
    rcases ss₁ with _ | ⟨a, l⟩
    · exact absurd rfl hne
    · rw [show (match some (a :: l) with
          | some ([] : List String) => (none : Option (List String))
          | x => x) = some (a :: l) from rfl]
      rw [jGet_scanSeg_some (a :: l) hne, hmap]
  · intro hnof
    rw [readFilters, hnof] at hF
    injection hF with hF
    subst hF
    rw [jHasKey, jGet_toDict, if_neg (by decide), if_neg (by decide),
      jGet_apiSeg_ne _ _ (by decide)]
    dsimp only
    rw [show jGet (filtSeg none) "filters" = none from rfl]
    rw [jGet_scanSeg_ne _ _ (by decide)]
    rfl
  · intro k hk
    by_cases h1 : k = "base_url"
    · exact Or.inl h1
    by_cases h2 : k = "target"
    · exact Or.inr (Or.inl h2)
    rw [jHasKey, jGet_toDict, if_neg (fun hh => h1 hh.symm),
      if_neg (fun hh => h2 hh.symm)] at hk
    dsimp only at hk
    rcases hA : jGet (apiSeg (jOptGet kvs "api_secret_key")) k with _ | av <;>
      rw [hA] at hk
    · rcases hFk : jGet (filtSeg fopt) k with _ | fv <;> rw [hFk] at hk
      · dsimp only at hk
        exact Or.inr (Or.inr (Or.inr (Or.inr (key_scanSeg _ k hk))))
      · refine Or.inr (Or.inr (Or.inr (Or.inl (key_filtSeg fopt k ?_))))
        rw [hFk]
        rfl
    · refine Or.inr (Or.inr (Or.inl
        (key_apiSeg (jOptGet kvs "api_secret_key") k ?_)))
      rw [hA]
      rfl

/-- Witness for C9's amended round-trip at a concrete accepted
dictionary. -/
theorem config_roundtrip_fields_witness :
    jGet (toDict c9Config) "base_url" = jGet c9Dict "base_url" :=
  (config_roundtrip_fields (fun _ => true) c9Dict c9Config rfl).1

/-! ## `POST /scan` (`api_server.py:start_scan`)

The handler's decision structure over the parsed JSON body.  An uncaught
Python exception surfaces as Flask's 500 response; `TrackedScan.__init__`
writes the ScanRecord (`_update_scan_status`), so the second component
records whether a ScanRecord was created. -/

inductive ScanResponse where
  | ok200
  | badRequest (msg : String)
  | serverError

/-- Whether a requirement list declares `rule_files` as required. -/
def declaresRuleFiles (reqs : List ScannerRequirement) : Bool :=
  reqs.any fun req => req.name == "rule_files" && req.required

/-- The registry's "any selected plugin requires rule files" question
(as the coordinator computes it in `TrackedScan.run_scan`). -/
def needsRuleFiles (ids : List String) : Bool :=
  (getPluginRequirements pluginRegistry ids).any fun kv =>
    declaresRuleFiles kv.2

/-- `'name' in rule_file` / `'content' in rule_file`: Python `in` over
an arbitrary JSON value. -/
def pyContainsKey (rf : Json) (key : String) : Except PyErr Bool :=
  match rf with
  | .obj kvs => .ok (jHasKey kvs key)
  | .str s => .ok (pyIn key s)
  | .arr xs => .ok (xs.any fun x =>
      match x with
      | .str s => s == key
      | _ => false)
  | _ => .error (.typeError "argument of type is not iterable")

/-- One iteration of the rule-file validation loop: `some msg` is a 400
response, `none` passes; non-dict shapes that reach the subscription
raise. -/
def validateRuleFile (rf : Json) : Except PyErr (Option String) :=
  match pyContainsKey rf "name" with
  | .error e => .error e
  | .ok hasName =>
    match pyContainsKey rf "content" with
    | .error e => .error e
    | .ok hasContent =>
      if ! hasName || ! hasContent then
        .ok (some "Rule file must contain \x22name\x22 and \x22content\x22 fields")
      else
        match rf with
        | .obj kvs =>
          match jGet kvs "name" with
          | some (.str n) =>
            if pyEndsWith n ".yaml" || pyEndsWith n ".yml"
                || pyEndsWith n ".json" then
              .ok none
            else
              .ok (some ("Rule file " ++ n
                ++ " is not in .yaml or .json format"))
          | some _ => .error (.attributeError "has no attribute endswith")
          | none => .error (.keyError "name")
        | _ => .error (.typeError "indices must be integers")

def validateRuleFiles : List Json → Except PyErr (Option String)
  | [] => .ok none
  | rf :: rest =>
    match validateRuleFile rf with
    | .error e => .error e
    | .ok (some msg) => .ok (some msg)
    | .ok none => validateRuleFiles rest

/-- `[s.value for s in (scan_config.scanners or ['semgrep'])]`: when the
scanners list is falsy the default is a list of plain strings, and
`.value` on a `str` raises `AttributeError`. -/
def scannersValueStep (sc : Option (List String)) :
    Except PyErr (List String) :=
  match sc with
  | some (s :: rest) => .ok (s :: rest)
  | _ => .error (.attributeError "str object has no attribute value")

/-- `start_scan` over the parsed request body: the response and whether
a ScanRecord was created (`TrackedScan.__init__` writes it). -/
def startScan (regexOk : String → Bool) (kvs : JObj) :
    ScanResponse × Bool :=
  match jGet kvs "config" with
  | none => (.badRequest "Missing config field", false)
  | some configJson =>
    match fromDict regexOk configJson with
    | .error (.valueError m) =>
      (.badRequest ("Invalid configuration: " ++ m), false)
    | .error (.keyError m) =>
      (.badRequest ("Invalid configuration: " ++ m), false)
    | .error _ => (.serverError, false)
    | .ok c =>
      let ruleFiles := (jGet kvs "rule_files").getD (.arr [])
      let semgrepSelected :=
        match c.scanners with
        | some ss => ! ss.isEmpty && ss.contains "semgrep"
        | none => false
      let ruleCheck : Option (ScanResponse × Bool) :=
        if semgrepSelected then
          if ! jTruthy ruleFiles
              || ! (match ruleFiles with | .arr _ => true | _ => false) then
            some (.badRequest "Rule files are required", false)
          else
            match ruleFiles with
            | .arr rfs =>
              (match validateRuleFiles rfs with
               | .error _ => some (.serverError, false)
               | .ok (some msg) => some (.badRequest msg, false)
               | .ok none => none)
            | _ => some (.serverError, false)
        else none
      match ruleCheck with
      | some resp => resp
      | none =>
        match scannersValueStep c.scanners with
        | .error _ => (.serverError, false)
        | .ok _ => (.ok200, true)

/-- The selected scanner ids, the default selection applied when the
field is omitted (as the claim reads them). -/
def selectedScanners (c : GSASTConfig) : List String :=
  match c.scanners with
  | some ss => ss
  | none => ["semgrep"]

/-- The rule-files-requirement contribution of a single plugin id:
only semgrep declares a required `rule_files`. -/
theorem idNeedsRuleFiles_eq (id : String) :
    (match getPlugin pluginRegistry id with
     | some pl => declaresRuleFiles pl.requirements
     | none => false) = (id == "semgrep") := by
  by_cases h1 : id = "semgrep"
  · subst h1; rfl
  by_cases h2 : id = "trufflehog"
  · subst h2; rfl
  by_cases h3 : id = "dependency-confusion"
  · subst h3; rfl
  have e1 : ¬ ("semgrep" = id) := fun h => h1 h.symm
  have e2 : ¬ ("trufflehog" = id) := fun h => h2 h.symm
  have e3 : ¬ ("dependency-confusion" = id) := fun h => h3 h.symm
  rw [show getPlugin pluginRegistry id = none by
    simp [getPlugin, pluginRegistry, loadPlugins, jHasKey, jGet,
      semgrepPlugin, trufflehogPlugin, dependencyConfusionPlugin,
      e1, e2, e3]]
  simp [beq_eq_false_iff_ne, h1]

theorem any_beq_semgrep (l : List String) :
    (l.any fun id => id == "semgrep") = l.contains "semgrep" := by
  induction l with
  | nil => rfl
  | cons a l ih =>
    simp only [List.any_cons, List.contains_cons, ih]
    congr 1
    by_cases h : a = "semgrep"
    · subst h; rfl
    · have h' : ¬ "semgrep" = a := fun hh => h hh.symm
      rw [beq_false_of_ne h, beq_false_of_ne h']

/-- `needs_rule_files` over the registry is exactly semgrep
membership. -/
theorem needsRuleFiles_eq_contains (ids : List String) :
    needsRuleFiles ids = ids.contains "semgrep" := by
  rw [needsRuleFiles, getPluginRequirements,
    getPluginRequirementsAux_any declaresRuleFiles ids []
      (by intro kv hkv; simp at hkv)]
  simp only [List.any_nil, Bool.false_or]
  have he : (fun id =>
      match getPlugin pluginRegistry id with
      | some pl => declaresRuleFiles pl.requirements
      | none => false)
      = (fun id => id == "semgrep") :=
    funext fun id => idNeedsRuleFiles_eq id
  rw [he]
  exact any_beq_semgrep ids

/-- The request body of C2's counterexample: the config omits the
`scanners` field and no `rule_files` are supplied. -/
def c2Req : JObj :=
  [("config", .obj
    [("base_url", .str "http://h"),
     ("target", .obj [("provider", .str "github"),
                      ("organizations", .arr [.str "acme"])])])]

/-- C2 counterexample: with `scanners` omitted the default selection is
`['semgrep']`, which requires rule files, and `rule_files` is missing —
yet the response is not the claimed 400: the rule-file check is skipped
(`scan_config.scanners` is `None`) and the request dies with an
`AttributeError` (HTTP 500) at the `[s.value for s in (... or
['semgrep'])]` line.  No ScanRecord is created. -/
theorem start_scan_missing_rules_counterexample :
    (∃ c, fromDict (fun _ => true)
        (.obj [("base_url", .str "http://h"),
               ("target", .obj [("provider", .str "github"),
                                ("organizations", .arr [.str "acme"])])])
        = .ok c ∧ c.scanners = none ∧ needsRuleFiles (selectedScanners c) = true)
    ∧ jGet c2Req "rule_files" = none
    ∧ startScan (fun _ => true) c2Req = (.serverError, false) :=
  ⟨⟨{ base_url := "http://h",
      target := { provider := "github", repositories := none,
                  organizations := some (.arr [.str "acme"]),
                  groups := none },
      api_secret_key := none, filters := none, scanners := none },
    rfl, rfl, rfl⟩, rfl, rfl⟩

/-- C2 (amended): when the request's config *explicitly* selects
scanners including semgrep (the one registered plugin requiring rule
files) and `rule_files` is missing or an empty list, the response is 400
`Rule files are required` and no ScanRecord is created; but when the
`scanners` field is omitted, the rule-file check is skipped entirely and
the request instead fails with a 500 server error at the
default-selection step (still creating no ScanRecord). -/
theorem start_scan_rule_files_behavior (regexOk : String → Bool)
    (kvs : JObj) (configJson : Json) (c : GSASTConfig)
    (hcfg : jGet kvs "config" = some configJson)
    (hok : fromDict regexOk configJson = .ok c)
    (hrf : jGet kvs "rule_files" = none
      ∨ jGet kvs "rule_files" = some (.arr [])) :
    (∀ ss, c.scanners = some ss → needsRuleFiles ss = true →
      startScan regexOk kvs = (.badRequest "Rule files are required", false))
    ∧ (c.scanners = none →
      startScan regexOk kvs = (.serverError, false)) := by
  have hfiles : ((jGet kvs "rule_files").getD (.arr []) = .arr []) := by
    rcases hrf with h | h <;> rw [h] <;> rfl
  constructor
  · intro ss hss hneed
    rw [needsRuleFiles_eq_contains] at hneed
    have hne : ss.isEmpty = false := by
      rcases ss with _ | ⟨a, l⟩
      · simp at hneed
      · rfl
    simp only [startScan, hcfg, hok, hfiles, hss, hne, hneed, jTruthy,
      Bool.not_false, Bool.not_true, Bool.true_and, Bool.true_or,
      Bool.or_true, Bool.false_or, List.isEmpty_nil, if_true]
  · intro hss
    simp only [startScan, hcfg, hok, hfiles, hss, scannersValueStep]
    rfl

/-- Witness for C2's amended behavior at a concrete request. -/
theorem start_scan_rule_files_behavior_witness :
    startScan (fun _ => true)
      [("config", .obj
        [("base_url", .str "http://h"),
         ("target", .obj [("provider", .str "github"),
                          ("organizations", .arr [.str "acme"])]),
         ("scanners", .arr [.str "semgrep"])]),
       ("rule_files", .arr [])]
      = (.badRequest "Rule files are required", false) :=
  (start_scan_rule_files_behavior (fun _ => true)
    [("config", .obj
      [("base_url", .str "http://h"),
       ("target", .obj [("provider", .str "github"),
                        ("organizations", .arr [.str "acme"])]),
       ("scanners", .arr [.str "semgrep"])]),
     ("rule_files", .arr [])]
    (.obj
      [("base_url", .str "http://h"),
       ("target", .obj [("provider", .str "github"),
                        ("organizations", .arr [.str "acme"])]),
       ("scanners", .arr [.str "semgrep"])])
    { base_url := "http://h",
      target := { provider := "github", repositories := none,
                  organizations := some (.arr [.str "acme"]),
                  groups := none },
      api_secret_key := none, filters := none,
      scanners := some ["semgrep"] }
    rfl rfl (Or.inr rfl)).1 ["semgrep"] rfl rfl

end GSAST
